import Mathlib

/-!
# Dye transport simulation: the fluid solver of `fluid-sim/fluidsystem.cpp`

A shallow embedding of `FluidSystem` (stable-fluids solver on a padded grid) and
theorems about its relaxation solver, projection stage, boundary fill and
stepping pipeline.

Conventions of the embedding.

* `Scalar` is a type parameter `α`.  The structural results (loops, boundary fill,
  relaxation solver) only use the operations `+ - * /` and the constants `0`, `1`
  with no algebraic law assumed, so they hold for any arithmetic, rounding
  included.  Results that need to calculate are stated over a (linearly ordered)
  field, i.e. for exact arithmetic; `ℚ` is used for concrete evaluation.  Where
  exact arithmetic hides an overflow, the same definitions are evaluated in `Fp`, a
  model of IEEE floating-point arithmetic with infinities and NaN.
* `Grid::Index` is `Nat`; every loop starts at `1`, so `i - 1` never truncates.
* A `for (k = lo; k <= hi; ++k)` loop with `lo = 1` is `forLoop 1 hi`.
* `fluidsystem.h` is not part of the sources at hand.  What it declares (the grid
  container, the vector field, `diffuse`, `advect`, the default iteration count)
  is modelled from the specification and marked so.
-/

namespace FluidSim

set_option linter.unusedVariables false

/-! ## Grids -/

/-- Modelled from the spec: the scalar grid container declared in `fluidsystem.h`
(missing).  A grid has its dimensions and one value per cell `(i, j, 0)`; the
third index of the source is always `0` and is dropped. -/
structure Grid (α : Type) where
  dims : Nat × Nat × Nat
  cell : Nat → Nat → α

namespace Grid

variable {α : Type}

/-- Modelled from the spec: `Grid g(dimensions)`, a container "default-initialized
to zero" (spec §4.1). -/
def zero [Zero α] (dimensions : Nat × Nat × Nat) : Grid α :=
  { dims := dimensions, cell := fun _ _ => 0 }

/-- Point read `g(i, j, 0)`. -/
def get (g : Grid α) (i j : Nat) : α := g.cell i j

/-- Point write `g(i, j, 0) = v`. -/
def set (g : Grid α) (i j : Nat) (v : α) : Grid α :=
  { g with cell := fun p q => if p = i ∧ q = j then v else g.cell p q }

/-- Modelled from the spec: `g.clear()`, reset to zero in place. -/
def clear [Zero α] (g : Grid α) : Grid α :=
  { g with cell := fun _ _ => 0 }

/-- Modelled from the spec: elementwise `g += other`. -/
def add [Add α] (g other : Grid α) : Grid α :=
  { g with cell := fun p q => g.cell p q + other.cell p q }

/-- Modelled from the spec: elementwise `g -= other`. -/
def sub [Sub α] (g other : Grid α) : Grid α :=
  { g with cell := fun p q => g.cell p q - other.cell p q }

/-- Modelled from the spec: elementwise scaling `k * g`. -/
def scale [Mul α] (k : α) (g : Grid α) : Grid α :=
  { g with cell := fun p q => k * g.cell p q }

end Grid

/-- Modelled from the spec: the two-component vector field of `fluidsystem.h`
(missing); `c0` is `field[0]` (x) and `c1` is `field[1]` (y). -/
structure VelocityField (α : Type) where
  c0 : Grid α
  c1 : Grid α

namespace VelocityField

variable {α : Type}

/-- Modelled from the spec: `VelocityField f(dimensions)`, both components zero. -/
def zero [Zero α] (dimensions : Nat × Nat × Nat) : VelocityField α :=
  { c0 := Grid.zero dimensions, c1 := Grid.zero dimensions }

/-- Modelled from the spec: `f.clear()`. -/
def clear [Zero α] (f : VelocityField α) : VelocityField α :=
  { c0 := f.c0.clear, c1 := f.c1.clear }

/-- Modelled from the spec: componentwise `f += other`. -/
def add [Add α] (f other : VelocityField α) : VelocityField α :=
  { c0 := f.c0.add other.c0, c1 := f.c1.add other.c1 }

/-- Modelled from the spec: componentwise `f -= other`. -/
def sub [Sub α] (f other : VelocityField α) : VelocityField α :=
  { c0 := f.c0.sub other.c0, c1 := f.c1.sub other.c1 }

end VelocityField

/-- A grid all of whose cells are zero. -/
def Grid.IsZero {α : Type} [Zero α] (g : Grid α) : Prop := ∀ p q, g.cell p q = 0

/-- A velocity field all of whose cells are zero. -/
def VelocityField.IsZero {α : Type} [Zero α] (f : VelocityField α) : Prop :=
  f.c0.IsZero ∧ f.c1.IsZero

/-! ## Loops -/

/-- The loop `for (k = lo; k < lo + cnt; ++k) state = body k state`. -/
def forLoop {σ : Type} (lo : Nat) : Nat → (Nat → σ → σ) → σ → σ
  | 0, _, st => st
  | cnt + 1, body, st => forLoop (lo + 1) cnt body (body lo st)

/-! ## The fluid system -/

/-- What `advect` asks of `Scalar` besides the arithmetic operations: the comparison
`x < y` and the conversion `(int) x` of a non-negative value. -/
class Truncation (α : Type) where
  less : α → α → Bool
  toInt : α → Int

/-- In exact arithmetic the comparison is the order of the field and the conversion is
the floor. -/
instance Truncation.ofFloorRing {α : Type} [LinearOrderedField α] [FloorRing α] :
    Truncation α where
  less x y := decide (x < y)
  toInt x := Int.floor x

/-- The members of `FluidSystem`.  The dye field has one component and is a grid. -/
structure FluidSystem (α : Type) where
  width : Nat
  height : Nat
  fullWidth : Nat
  fullHeight : Nat
  fullDimensions : Nat × Nat × Nat
  diffusionConstant : α
  viscosity : α
  density : Grid α
  velocity : VelocityField α
  densityPrev : Grid α
  velocityPrev : VelocityField α

namespace FluidSystem

variable {α : Type}

/-- `FluidSystem::FluidSystem(width, height, diffusionConstant, viscosity)`
(fluidsystem.cpp:6-12). -/
def new [Zero α] (width height : Nat) (diffusionConstant viscosity : α) : FluidSystem α :=
  let fullWidth := width + 2
  let fullHeight := height + 2
  let fullDimensions := (fullWidth, fullHeight + 2, 1)
  { width := width, height := height, fullWidth := fullWidth, fullHeight := fullHeight,
    fullDimensions := fullDimensions,
    diffusionConstant := diffusionConstant, viscosity := viscosity,
    density := Grid.zero fullDimensions, velocity := VelocityField.zero fullDimensions,
    densityPrev := Grid.zero fullDimensions,
    velocityPrev := VelocityField.zero fullDimensions }

/-- `FluidSystem::setBoundaries(grid, b)` (fluidsystem.cpp:112-121). -/
def setBoundaries [One α] [Neg α] [Mul α] (s : FluidSystem α) (grid : Grid α) (b : Int) :
    Grid α :=
  let grid := forLoop 1 s.height (fun j grid =>
    let grid := grid.set 0 j ((if b = 1 then -1 else 1) * grid.get 1 j)
    grid.set (s.width + 1) j ((if b = 1 then -1 else 1) * grid.get s.width j)) grid
  forLoop 1 s.width (fun i grid =>
    let grid := grid.set i 0 ((if b = 2 then -1 else 1) * grid.get i 1)
    grid.set i (s.height + 1) ((if b = 2 then -1 else 1) * grid.get i s.height)) grid

/-- `FluidSystem::setContinuityBoundaries` (fluidsystem.cpp:122-124). -/
def setContinuityBoundaries [One α] [Neg α] [Mul α] (s : FluidSystem α) (grid : Grid α) :
    Grid α :=
  s.setBoundaries grid 0

/-- `FluidSystem::setHorizontalNeumannBoundaries` (fluidsystem.cpp:125-127). -/
def setHorizontalNeumannBoundaries [One α] [Neg α] [Mul α] (s : FluidSystem α)
    (grid : Grid α) : Grid α :=
  s.setBoundaries grid 1

/-- `FluidSystem::setVerticalNeumannBoundaries` (fluidsystem.cpp:128-130). -/
def setVerticalNeumannBoundaries [One α] [Neg α] [Mul α] (s : FluidSystem α)
    (grid : Grid α) : Grid α :=
  s.setBoundaries grid 2

/-- One pass of the two inner loops of `solvePoisson` (fluidsystem.cpp:65-72):
every interior cell of `temp` is written from `x_0` and the neighbours in `x`. -/
def relaxInto [Add α] [Mul α] [Div α] (s : FluidSystem α) (x_0 x : Grid α) (a c : α)
    (temp : Grid α) : Grid α :=
  forLoop 1 s.width (fun i temp =>
    forLoop 1 s.height (fun j temp =>
      temp.set i j ((x_0.get i j + a * (x.get (i - 1) j + x.get (i + 1) j +
        x.get i (j - 1) + x.get i (j + 1))) / c)) temp) temp

/-- `FluidSystem::solvePoisson(x, x_0, a, c, setBoundaries, numIterations)`
(fluidsystem.cpp:58-77).  The loop state is the pair `(x, temp)`; the result is the
final `x`.  `temp` is allocated once, before the loop; the incoming `x` is
overwritten by `x = x_0` before it is read. -/
def solvePoisson [Zero α] [Add α] [Mul α] [Div α] (s : FluidSystem α) (x x_0 : Grid α)
    (a c : α) (setBoundaries : Grid α → Grid α) (numIterations : Nat) : Grid α :=
  let temp : Grid α := Grid.zero s.fullDimensions
  let x := x_0
  (forLoop 0 numIterations (fun _ (st : Grid α × Grid α) =>
    let temp := s.relaxInto x_0 st.1 a c st.2
    let x := temp
    (setBoundaries x, temp)) (x, temp)).1

/-- `FluidSystem::grad(out, in)` (fluidsystem.cpp:95-102). -/
def grad [One α] [NatCast α] [Sub α] [Mul α] [Div α] (s : FluidSystem α) (out : VelocityField α) (input : Grid α) :
    VelocityField α :=
  forLoop 1 s.width (fun i out =>
    forLoop 1 s.height (fun j out =>
      let out : VelocityField α :=
        { out with c0 := out.c0.set i j (1 / 2 * (input.get (i + 1) j - input.get (i - 1) j)) }
      { out with c1 := out.c1.set i j (1 / 2 * (input.get i (j + 1) - input.get i (j - 1))) })
      out) out

/-- `FluidSystem::div(out, in)` (fluidsystem.cpp:103-110). -/
def div [One α] [NatCast α] [Add α] [Sub α] [Mul α] [Div α] (s : FluidSystem α) (out : Grid α)
    (input : VelocityField α) : Grid α :=
  forLoop 1 s.width (fun i out =>
    forLoop 1 s.height (fun j out =>
      let out := out.set i j (1 / 2 * (input.c0.get (i + 1) j - input.c0.get (i - 1) j))
      out.set i j (out.get i j + 1 / 2 * (input.c1.get i (j + 1) - input.c1.get i (j - 1))))
      out) out

/-- `FluidSystem::project(velocity)` (fluidsystem.cpp:79-94).  `numIterations` is the
default argument of `solvePoisson`, declared in `fluidsystem.h` (missing), taken as a
parameter. -/
def project [Zero α] [One α] [NatCast α] [Neg α] [Add α] [Sub α] [Mul α] [Div α]
    (s : FluidSystem α) (numIterations : Nat)
    (velocity : VelocityField α) : VelocityField α :=
  let pressure : Grid α := Grid.zero s.fullDimensions
  let divergence : Grid α := Grid.zero s.fullDimensions
  let divergence := s.div divergence velocity
  let divergence := Grid.scale (-1) divergence
  let divergence := s.setContinuityBoundaries divergence
  let pressure := s.setContinuityBoundaries pressure
  let pressure := s.solvePoisson pressure divergence 1 4 s.setContinuityBoundaries numIterations
  let gradient : VelocityField α := VelocityField.zero s.fullDimensions
  let gradient := s.grad gradient pressure
  let velocity := velocity.sub gradient
  let velocity := { velocity with c0 := s.setHorizontalNeumannBoundaries velocity.c0 }
  { velocity with c1 := s.setVerticalNeumannBoundaries velocity.c1 }

/-- Modelled from the spec: `diffuse` for one grid (declared in `fluidsystem.h`,
missing).  Spec §4.3: the relaxation solver with `a = dt·rate·width·height` and
`c = 1 + 4a`. -/
def diffuseGrid [Zero α] [One α] [NatCast α] [Add α] [Mul α] [Div α] (s : FluidSystem α)
    (numIterations : Nat) (x x_0 : Grid α)
    (rate dt : α) (setBoundaries : Grid α → Grid α) : Grid α :=
  let a := dt * rate * (s.width : α) * (s.height : α)
  s.solvePoisson x x_0 a (1 + 4 * a) setBoundaries numIterations

/-- Modelled from the spec: `diffuse(out, in, rate, dt, boundarySetters)` on a
velocity field (declared in `fluidsystem.h`, missing): each component is diffused
with its own boundary setter. -/
def diffuse [Zero α] [One α] [NatCast α] [Add α] [Mul α] [Div α] (s : FluidSystem α)
    (numIterations : Nat)
    (out input : VelocityField α) (rate dt : α) (setter0 setter1 : Grid α → Grid α) :
    VelocityField α :=
  { c0 := s.diffuseGrid numIterations out.c0 input.c0 rate dt setter0,
    c1 := s.diffuseGrid numIterations out.c1 input.c1 rate dt setter1 }

/-- Modelled from the spec: the clamp of the traced position in `advect` (spec §4.5,
"clamp the traced source position to stay within the valid interior+half-border
range"). -/
def clampPos [One α] [NatCast α] [Add α] [Div α] [Truncation α] (extent : Nat) (x : α) : α :=
  if Truncation.less x (1 / 2) then 1 / 2
  else if Truncation.less ((extent : α) + 1 / 2) x then (extent : α) + 1 / 2 else x

/-- Modelled from the spec: `advect` for one grid (declared in `fluidsystem.h`,
missing).  Spec §4.5: for each interior cell trace backward along the velocity at
that cell scaled by `dt` and the grid dimension, clamp, interpolate the previous
grid `d0` bilinearly, write into the destination `d`; then apply the boundary
policy. -/
def advectGrid [One α] [NatCast α] [Add α] [Sub α] [Mul α] [Div α] [Truncation α]
    (s : FluidSystem α) (d d0 : Grid α)
    (field : VelocityField α) (dt : α) (setBoundaries : Grid α → Grid α) : Grid α :=
  let d := forLoop 1 s.width (fun i d =>
    forLoop 1 s.height (fun j d =>
      let x := clampPos s.width ((i : α) - dt * (s.width : α) * field.c0.get i j)
      let y := clampPos s.height ((j : α) - dt * (s.height : α) * field.c1.get i j)
      let i0 := (Truncation.toInt x).toNat
      let i1 := i0 + 1
      let j0 := (Truncation.toInt y).toNat
      let j1 := j0 + 1
      let s1 := x - (i0 : α)
      let s0 := 1 - s1
      let t1 := y - (j0 : α)
      let t0 := 1 - t1
      d.set i j (s0 * (t0 * d0.get i0 j0 + t1 * d0.get i0 j1) +
        s1 * (t0 * d0.get i1 j0 + t1 * d0.get i1 j1))) d) d
  setBoundaries d

/-- Modelled from the spec: `advect(out, in, field, dt, boundarySetters)` on a
velocity field (declared in `fluidsystem.h`, missing): each component of `out` is
advected from the same component of `in` through `field`. -/
def advect [One α] [NatCast α] [Add α] [Sub α] [Mul α] [Div α] [Truncation α]
    (s : FluidSystem α)
    (out input field : VelocityField α) (dt : α) (setter0 setter1 : Grid α → Grid α) :
    VelocityField α :=
  { c0 := s.advectGrid out.c0 input.c0 field dt setter0,
    c1 := s.advectGrid out.c1 input.c1 field dt setter1 }

/-- `FluidSystem::clear()` (fluidsystem.cpp:20-25). -/
def clear [Zero α] (s : FluidSystem α) : FluidSystem α :=
  let s := { s with density := s.density.clear }
  let s := { s with velocity := s.velocity.clear }
  let s := { s with densityPrev := s.densityPrev.clear }
  { s with velocityPrev := s.velocityPrev.clear }

/-- `FluidSystem::stepDensity(dt, addedDensity)` (fluidsystem.cpp:27-39).  The
members `density` and `densityPrev` are threaded as local state, `std::swap`
exchanges them; `width`, `height` and `fullDimensions`, which no method changes, are
read from `s`. -/
def stepDensity [Zero α] [One α] [NatCast α] [Neg α] [Add α] [Sub α] [Mul α] [Div α]
    [Truncation α] (s : FluidSystem α)
    (numIterations : Nat) (dt : α) (addedDensity : Grid α) : FluidSystem α :=
  let density := s.density.add addedDensity
  let densityPrev := s.densityPrev
  let boundarySetter : Grid α → Grid α := s.setContinuityBoundaries
  let swapped := (densityPrev, density)
  let density := swapped.1
  let densityPrev := swapped.2
  let density :=
    s.diffuseGrid numIterations density densityPrev s.diffusionConstant dt boundarySetter
  let swapped := (densityPrev, density)
  let density := swapped.1
  let densityPrev := swapped.2
  let density := s.advectGrid density densityPrev s.velocity dt boundarySetter
  { s with density := density, densityPrev := densityPrev }

/-- `FluidSystem::stepVelocity(dt, addedVelocity)` (fluidsystem.cpp:41-56), with the
members `velocity` and `velocityPrev` threaded as local state. -/
def stepVelocity [Zero α] [One α] [NatCast α] [Neg α] [Add α] [Sub α] [Mul α] [Div α]
    [Truncation α] (s : FluidSystem α)
    (numIterations : Nat) (dt : α) (addedVelocity : VelocityField α) : FluidSystem α :=
  let velocity := s.velocity.add addedVelocity
  let velocityPrev := s.velocityPrev
  let setter0 : Grid α → Grid α := s.setHorizontalNeumannBoundaries
  let setter1 : Grid α → Grid α := s.setVerticalNeumannBoundaries
  let swapped := (velocityPrev, velocity)
  let velocity := swapped.1
  let velocityPrev := swapped.2
  let velocity :=
    s.diffuse numIterations velocity velocityPrev s.viscosity dt setter0 setter1
  let velocity := s.project numIterations velocity
  let swapped := (velocityPrev, velocity)
  let velocity := swapped.1
  let velocityPrev := swapped.2
  let velocity := s.advect velocity velocityPrev velocityPrev dt setter0 setter1
  let velocity := s.project numIterations velocity
  { s with velocity := velocity, velocityPrev := velocityPrev }

/-- `FluidSystem::step(addedDensity, addedVelocity, dt)` (fluidsystem.cpp:14-18). -/
def step [Zero α] [One α] [NatCast α] [Neg α] [Add α] [Sub α] [Mul α] [Div α]
    [Truncation α] (s : FluidSystem α)
    (numIterations : Nat)
    (addedDensity : Grid α) (addedVelocity : VelocityField α) (dt : α) : FluidSystem α :=
  let s := s.stepVelocity numIterations dt addedVelocity
  s.stepDensity numIterations dt addedDensity

/-! ## The relaxation solver in the words of the specification -/

/-- The Jacobi sweep of spec §4.3: a separate destination buffer (a fresh grid, zero
as every new grid is) receives at every interior cell the value
`(x0[i,j] + a·(x[i-1,j] + x[i+1,j] + x[i,j-1] + x[i,j+1])) / c` computed from the
pre-sweep grid `x`, and becomes the working grid. -/
def jacobiSweepSpec [Zero α] [Add α] [Mul α] [Div α] (s : FluidSystem α) (x_0 : Grid α)
    (a c : α) (x : Grid α) : Grid α :=
  { dims := s.fullDimensions,
    cell := fun i j =>
      if 1 ≤ i ∧ i ≤ s.width ∧ 1 ≤ j ∧ j ≤ s.height then
        (x_0.cell i j + a * (x.cell (i - 1) j + x.cell (i + 1) j +
          x.cell i (j - 1) + x.cell i (j + 1))) / c
      else 0 }

/-- One step of spec §4.3: Jacobi sweep, then boundary policy. -/
def relaxStepSpec [Zero α] [Add α] [Mul α] [Div α] (s : FluidSystem α) (x_0 : Grid α)
    (a c : α) (policy : Grid α → Grid α) (x : Grid α) : Grid α :=
  policy (s.jacobiSweepSpec x_0 a c x)

/-- Two systems with the same `width`, `height` and `fullDimensions`: the members
the const methods read. -/
def SameGeometry (s t : FluidSystem α) : Prop :=
  s.width = t.width ∧ s.height = t.height ∧ s.fullDimensions = t.fullDimensions

/-- The scratch grid of `solvePoisson` looks like a fresh destination buffer: it has
the full dimensions and is zero outside the interior. -/
def FreshOutside [Zero α] (s : FluidSystem α) (temp : Grid α) : Prop :=
  temp.dims = s.fullDimensions ∧
    ∀ p q, ¬ (1 ≤ p ∧ p ≤ s.width ∧ 1 ≤ q ∧ q ≤ s.height) → temp.cell p q = 0

/-- The right-hand side of the pressure equation as `project` builds it
(fluidsystem.cpp:81-84): the divergence, negated, with continuity borders. -/
def negDivergence [Field α] (s : FluidSystem α) (velocity : VelocityField α) : Grid α :=
  s.setContinuityBoundaries (Grid.scale (-1) (s.div (Grid.zero s.fullDimensions) velocity))

/-- The pressure `project` solves for (fluidsystem.cpp:80-88). -/
def pressure [Field α] (s : FluidSystem α) (numIterations : Nat)
    (velocity : VelocityField α) : Grid α :=
  s.solvePoisson (s.setContinuityBoundaries (Grid.zero s.fullDimensions))
    (s.negDivergence velocity) 1 4 s.setContinuityBoundaries numIterations

/-- The central-difference divergence of a velocity field at cell `(i, j)`:
`0.5·(u[i+1,j] − u[i−1,j]) + 0.5·(v[i,j+1] − v[i,j−1])`. -/
def divergenceAt [Field α] (velocity : VelocityField α) (i j : Nat) : α :=
  1 / 2 * (velocity.c0.cell (i + 1) j - velocity.c0.cell (i - 1) j) +
    1 / 2 * (velocity.c1.cell i (j + 1) - velocity.c1.cell i (j - 1))

/-- The x component `project` writes at an interior cell `(k, j)`
(fluidsystem.cpp:88-91): `u[k,j] − 0.5·(p[k+1,j] − p[k−1,j])`, with `p` the pressure. -/
def correctedX [Field α] (s : FluidSystem α) (numIterations : Nat)
    (velocity : VelocityField α) (k j : Nat) : α :=
  velocity.c0.cell k j -
    1 / 2 * ((s.pressure numIterations velocity).cell (k + 1) j -
      (s.pressure numIterations velocity).cell (k - 1) j)

/-- The y component `project` writes at an interior cell `(i, k)`
(fluidsystem.cpp:88-91): `v[i,k] − 0.5·(p[i,k+1] − p[i,k−1])`, with `p` the pressure. -/
def correctedY [Field α] (s : FluidSystem α) (numIterations : Nat)
    (velocity : VelocityField α) (i k : Nat) : α :=
  velocity.c1.cell i k -
    1 / 2 * ((s.pressure numIterations velocity).cell i (k + 1) -
      (s.pressure numIterations velocity).cell i (k - 1))

/-- The central-difference divergence of the central-difference gradient of the
pressure `p` at `(i, j)`: `0.25·(p[i+2,j] − 2p[i,j] + p[i−2,j]) + 0.25·(p[i,j+2] −
2p[i,j] + p[i,j−2])`. -/
def pressureResidual [Field α] (s : FluidSystem α) (numIterations : Nat)
    (velocity : VelocityField α) (i j : Nat) : α :=
  1 / 4 * ((s.pressure numIterations velocity).cell (i + 2) j -
      2 * (s.pressure numIterations velocity).cell i j +
      (s.pressure numIterations velocity).cell (i - 2) j) +
    1 / 4 * ((s.pressure numIterations velocity).cell i (j + 2) -
      2 * (s.pressure numIterations velocity).cell i j +
      (s.pressure numIterations velocity).cell i (j - 2))

/-- The reflective rules of spec §3 for the non-corner border cells of a velocity
field: the x component is negated at the left and right walls and copied at the
bottom and top, the y component is copied at the left and right walls and negated at
the bottom and top. -/
def ReflectiveRules [Neg α] (s : FluidSystem α) (v : VelocityField α) : Prop :=
  (∀ j, 1 ≤ j → j ≤ s.height →
      v.c0.cell 0 j = -v.c0.cell 1 j ∧
      v.c0.cell (s.width + 1) j = -v.c0.cell s.width j ∧
      v.c1.cell 0 j = v.c1.cell 1 j ∧
      v.c1.cell (s.width + 1) j = v.c1.cell s.width j) ∧
    (∀ i, 1 ≤ i → i ≤ s.width →
      v.c0.cell i 0 = v.c0.cell i 1 ∧
      v.c0.cell i (s.height + 1) = v.c0.cell i s.height ∧
      v.c1.cell i 0 = -v.c1.cell i 1 ∧
      v.c1.cell i (s.height + 1) = -v.c1.cell i s.height)

/-! ## The stepping pipeline in the words of the specification -/

/-- The velocity step of spec §4.6: `project(advect(q, q))` with
`q = project(diffuse(velocity + addedVelocity, viscosity))`.  The buffers a stage
writes into are the ones the double-buffering hands it. -/
def velocityStepSpec [LinearOrderedField α] [FloorRing α] (s : FluidSystem α)
    (numIterations : Nat) (dt : α) (addedVelocity : VelocityField α) : VelocityField α :=
  let summed := s.velocity.add addedVelocity
  let q := s.project numIterations
    (s.diffuse numIterations s.velocityPrev summed s.viscosity dt
      s.setHorizontalNeumannBoundaries s.setVerticalNeumannBoundaries)
  s.project numIterations
    (s.advect summed q q dt s.setHorizontalNeumannBoundaries s.setVerticalNeumannBoundaries)

/-- The intermediate field `q` of the velocity step: the velocity after the first
projection. -/
def firstProjection [LinearOrderedField α] [FloorRing α] (s : FluidSystem α)
    (numIterations : Nat) (dt : α) (addedVelocity : VelocityField α) : VelocityField α :=
  s.project numIterations
    (s.diffuse numIterations s.velocityPrev (s.velocity.add addedVelocity) s.viscosity dt
      s.setHorizontalNeumannBoundaries s.setVerticalNeumannBoundaries)

/-- The density step of spec §4.6: `advect(diffuse(density + addedDensity,
diffusionConstant))` through the velocity field `through`. -/
def densityStepSpec [LinearOrderedField α] [FloorRing α] (s : FluidSystem α)
    (numIterations : Nat) (dt : α) (addedDensity : Grid α) (through : VelocityField α) :
    Grid α :=
  let summed := s.density.add addedDensity
  let diffused := s.diffuseGrid numIterations s.densityPrev summed s.diffusionConstant dt
    s.setContinuityBoundaries
  s.advectGrid summed diffused through dt s.setContinuityBoundaries

end FluidSystem

/-! ## Boundary policies -/

/-- The policy tag of spec §3 and §4.2: open (continuity), horizontal-reflective,
vertical-reflective. -/
inductive BoundaryPolicy where
  | continuity
  | horizontalReflective
  | verticalReflective
  deriving DecidableEq, Repr

namespace BoundaryPolicy

variable {α : Type}

/-- The boundary fill of a policy: the setter of the source that implements it. -/
def fill [One α] [Neg α] [Mul α] (s : FluidSystem α) : BoundaryPolicy → Grid α → Grid α
  | continuity => s.setContinuityBoundaries
  | horizontalReflective => s.setHorizontalNeumannBoundaries
  | verticalReflective => s.setVerticalNeumannBoundaries

/-- The sign `s_x` a policy gives the left and right border columns. -/
def signX [One α] [Neg α] : BoundaryPolicy → α
  | continuity => 1
  | horizontalReflective => -1
  | verticalReflective => 1

/-- The sign `s_y` a policy gives the bottom and top border rows. -/
def signY [One α] [Neg α] : BoundaryPolicy → α
  | continuity => 1
  | horizontalReflective => 1
  | verticalReflective => -1

end BoundaryPolicy

/-! ## Checked indexing -/

/-- The predecessor `i - 1` of an unsigned index: `none` where it would wrap. -/
def checkedPred (i : Nat) : Option Nat :=
  if 1 ≤ i then some (i - 1) else none

/-- The loop `for (k = lo; k < lo + cnt; ++k)` with a body that may fail. -/
def forLoopChecked {σ : Type} (lo : Nat) : Nat → (Nat → σ → Option σ) → σ → Option σ
  | 0, _, st => some st
  | cnt + 1, body, st => (body lo st).bind (fun st => forLoopChecked (lo + 1) cnt body st)

namespace FluidSystem

variable {α : Type}

/-- Checked point read `g(i, j, 0)`: `none` unless `0 ≤ i ≤ width+1` and
`0 ≤ j ≤ height+1`. -/
def getChecked (s : FluidSystem α) (g : Grid α) (i j : Nat) : Option α :=
  if i ≤ s.width + 1 ∧ j ≤ s.height + 1 then some (g.get i j) else none

/-- Checked point write `g(i, j, 0) = v`: `none` unless `0 ≤ i ≤ width+1` and
`0 ≤ j ≤ height+1`. -/
def setChecked (s : FluidSystem α) (g : Grid α) (i j : Nat) (v : α) : Option (Grid α) :=
  if i ≤ s.width + 1 ∧ j ≤ s.height + 1 then some (g.set i j v) else none

/-- `FluidSystem::setBoundaries` (fluidsystem.cpp:112-121) with checked indexing. -/
def setBoundariesChecked [One α] [Neg α] [Mul α] (s : FluidSystem α) (grid : Grid α)
    (b : Int) : Option (Grid α) :=
  (forLoopChecked 1 s.height (fun j grid =>
    (s.getChecked grid 1 j).bind fun v1 =>
    (s.setChecked grid 0 j ((if b = 1 then -1 else 1) * v1)).bind fun grid =>
    (s.getChecked grid s.width j).bind fun v2 =>
    s.setChecked grid (s.width + 1) j ((if b = 1 then -1 else 1) * v2)) grid).bind fun grid =>
  forLoopChecked 1 s.width (fun i grid =>
    (s.getChecked grid i 1).bind fun v1 =>
    (s.setChecked grid i 0 ((if b = 2 then -1 else 1) * v1)).bind fun grid =>
    (s.getChecked grid i s.height).bind fun v2 =>
    s.setChecked grid i (s.height + 1) ((if b = 2 then -1 else 1) * v2)) grid

/-- The two inner loops of `solvePoisson` (fluidsystem.cpp:65-72) with checked
indexing and checked `i - 1`, `j - 1`. -/
def relaxIntoChecked [Add α] [Mul α] [Div α] (s : FluidSystem α) (x_0 x : Grid α) (a c : α)
    (temp : Grid α) : Option (Grid α) :=
  forLoopChecked 1 s.width (fun i temp =>
    forLoopChecked 1 s.height (fun j temp =>
      (s.getChecked x_0 i j).bind fun v0 =>
      (checkedPred i).bind fun im =>
      (s.getChecked x im j).bind fun xl =>
      (s.getChecked x (i + 1) j).bind fun xr =>
      (checkedPred j).bind fun jm =>
      (s.getChecked x i jm).bind fun xd =>
      (s.getChecked x i (j + 1)).bind fun xu =>
      s.setChecked temp i j ((v0 + a * (xl + xr + xd + xu)) / c)) temp) temp

/-- `FluidSystem::solvePoisson` (fluidsystem.cpp:58-77) with checked indexing; the
boundary setter may fail too. -/
def solvePoissonChecked [Zero α] [Add α] [Mul α] [Div α] (s : FluidSystem α)
    (x x_0 : Grid α) (a c : α) (setBoundaries : Grid α → Option (Grid α))
    (numIterations : Nat) : Option (Grid α) :=
  let temp : Grid α := Grid.zero s.fullDimensions
  let x := x_0
  (forLoopChecked 0 numIterations (fun _ (st : Grid α × Grid α) =>
    (s.relaxIntoChecked x_0 st.1 a c st.2).bind fun temp =>
    let x := temp
    (setBoundaries x).bind fun x =>
    some (x, temp)) (x, temp)).map Prod.fst

/-- `FluidSystem::grad` (fluidsystem.cpp:95-102) with checked indexing. -/
def gradChecked [Field α] (s : FluidSystem α) (out : VelocityField α) (input : Grid α) :
    Option (VelocityField α) :=
  forLoopChecked 1 s.width (fun i out =>
    forLoopChecked 1 s.height (fun j out =>
      (s.getChecked input (i + 1) j).bind fun pr =>
      (checkedPred i).bind fun im =>
      (s.getChecked input im j).bind fun pl =>
      (s.setChecked out.c0 i j (1 / 2 * (pr - pl))).bind fun c0 =>
      let out : VelocityField α := { out with c0 := c0 }
      (s.getChecked input i (j + 1)).bind fun pu =>
      (checkedPred j).bind fun jm =>
      (s.getChecked input i jm).bind fun pd =>
      (s.setChecked out.c1 i j (1 / 2 * (pu - pd))).bind fun c1 =>
      some { out with c1 := c1 }) out) out

/-- `FluidSystem::div` (fluidsystem.cpp:103-110) with checked indexing. -/
def divChecked [Field α] (s : FluidSystem α) (out : Grid α) (input : VelocityField α) :
    Option (Grid α) :=
  forLoopChecked 1 s.width (fun i out =>
    forLoopChecked 1 s.height (fun j out =>
      (s.getChecked input.c0 (i + 1) j).bind fun ur =>
      (checkedPred i).bind fun im =>
      (s.getChecked input.c0 im j).bind fun ul =>
      (s.setChecked out i j (1 / 2 * (ur - ul))).bind fun out =>
      (s.getChecked input.c1 i (j + 1)).bind fun vu =>
      (checkedPred j).bind fun jm =>
      (s.getChecked input.c1 i jm).bind fun vd =>
      (s.getChecked out i j).bind fun cur =>
      s.setChecked out i j (cur + 1 / 2 * (vu - vd))) out) out

end FluidSystem

/-! ## Patterns on the `4 × 4` system -/

/-- The non-corner cells of the padded `6 × 6` block of a `4 × 4` system: the
interior and the four border strips. -/
def NonCorner (p q : Nat) : Prop :=
  (p ≤ 5 ∧ 1 ≤ q ∧ q ≤ 4) ∨ (1 ≤ p ∧ p ≤ 4 ∧ q ≤ 5)

/-- The value in column `p` of a grid that is constant along every column and
antisymmetric about the middle: `a, a, b, -b, -a, -a` for `p = 0, …, 5`. -/
def colval {α : Type} [Neg α] (a b : α) (p : Nat) : α :=
  if p ≤ 1 then a else if p = 2 then b else if p = 3 then -b else -a

/-- A grid whose non-corner cells follow `colval a b`. -/
def ColumnPattern {α : Type} [Neg α] (a b : α) (x : Grid α) : Prop :=
  ∀ p q, NonCorner p q → x.cell p q = colval a b p

/-- A velocity field that, on the non-corner cells, is the uniform rightward flow of
magnitude `m` with horizontal-reflective borders: x component `m` inside and on the
bottom and top strips, `-m` on the left and right strips; y component `0`. -/
def WallPattern {α : Type} [Zero α] [Neg α] (m : α) (v : VelocityField α) : Prop :=
  (∀ p q, NonCorner p q → v.c0.cell p q = if p = 0 ∨ p = 5 then -m else m) ∧
    ∀ p q, NonCorner p q → v.c1.cell p q = 0

/-! ## Floating-point arithmetic -/

/-- Modelled from the spec: `Scalar` (declared in `fluidsystem.h`, missing) is a
floating-point type (spec §3, "floating-point values").  The model is IEEE-754 binary64
without rounding: a finite value is a rational number, a result whose magnitude exceeds
`Fp.maxFinite` overflows to an infinity, and the invalid operations (`0 × ∞`, `∞ − ∞`,
`0 / 0`, `∞ / ∞`, anything with a NaN) give a NaN.  There is one zero. -/
inductive Fp where
  | fin (q : ℚ)
  | posInf
  | negInf
  | nan

namespace Fp

/-- The largest finite binary64 value, `2¹⁰²⁴ − 2⁹⁷¹`. -/
def maxFinite : ℚ := 2 ^ 1024 - 2 ^ 971

/-- The result of an operation whose exact value is `q`. -/
def ofRat (q : ℚ) : Fp :=
  if maxFinite < q then posInf else if q < -maxFinite then negInf else fin q

/-- An infinity times the finite value `q`: the infinity with the sign of `q`, a NaN for
`q = 0`. -/
def infTimes (q : ℚ) : Fp :=
  if q = 0 then nan else if 0 < q then posInf else negInf

/-- Negation. -/
def neg : Fp → Fp
  | fin q => fin (-q)
  | posInf => negInf
  | negInf => posInf
  | nan => nan

/-- Addition. -/
def add : Fp → Fp → Fp
  | fin a, fin b => ofRat (a + b)
  | fin _, posInf => posInf
  | fin _, negInf => negInf
  | posInf, fin _ => posInf
  | negInf, fin _ => negInf
  | posInf, posInf => posInf
  | negInf, negInf => negInf
  | posInf, negInf => nan
  | negInf, posInf => nan
  | nan, _ => nan
  | _, nan => nan

/-- Multiplication. -/
def mul : Fp → Fp → Fp
  | fin a, fin b => ofRat (a * b)
  | fin a, posInf => infTimes a
  | fin a, negInf => infTimes (-a)
  | posInf, fin b => infTimes b
  | negInf, fin b => infTimes (-b)
  | posInf, posInf => posInf
  | negInf, negInf => posInf
  | posInf, negInf => negInf
  | negInf, posInf => negInf
  | nan, _ => nan
  | _, nan => nan

/-- Division; a finite non-zero value over zero is an infinity. -/
def div : Fp → Fp → Fp
  | fin a, fin b => if b = 0 then infTimes a else ofRat (a / b)
  | fin _, posInf => fin 0
  | fin _, negInf => fin 0
  | posInf, fin b => if 0 ≤ b then posInf else negInf
  | negInf, fin b => if 0 ≤ b then negInf else posInf
  | posInf, posInf => nan
  | negInf, negInf => nan
  | posInf, negInf => nan
  | negInf, posInf => nan
  | nan, _ => nan
  | _, nan => nan

/-- The comparison `x < y`; false when a NaN is involved. -/
def less : Fp → Fp → Bool
  | fin a, fin b => decide (a < b)
  | fin _, posInf => true
  | negInf, fin _ => true
  | negInf, posInf => true
  | _, _ => false

/-- The conversion `(int) x` of a finite value, truncated towards zero; the conversion
of an infinity or a NaN, which C++ leaves undefined, is taken to be `0`. -/
def toInt : Fp → Int
  | fin q => if 0 ≤ q then Int.floor q else Int.ceil q
  | _ => 0

instance instZero : Zero Fp := ⟨fin 0⟩

instance instOne : One Fp := ⟨fin 1⟩

instance instNatCast : NatCast Fp := ⟨fun n => ofRat n⟩

instance instNeg : Neg Fp := ⟨neg⟩

instance instAdd : Add Fp := ⟨add⟩

instance instSub : Sub Fp := ⟨fun x y => add x (neg y)⟩

instance instMul : Mul Fp := ⟨mul⟩

instance instDiv : Div Fp := ⟨div⟩

instance instTruncation : Truncation Fp := ⟨less, toInt⟩

end Fp

/-! ## Concrete inputs -/

/-- The uniform rightward flow of magnitude `m` in a `4 × 4` box with walls: x
component `m`, negated in the border columns `0` and `5`; y component `0`. -/
def wallField (m : ℚ) : VelocityField ℚ :=
  { c0 := { dims := (6, 8, 1), cell := fun p _ => if p = 0 ∨ p = 5 then -m else m },
    c1 := Grid.zero (6, 8, 1) }


/-- A `2 × 2` system over the rationals. -/
def sys22 : FluidSystem ℚ := FluidSystem.new 2 2 0 0

/-- A grid whose cells are pairwise different: cell `(i, j)` holds `i + 10 j`. -/
def rampGrid : Grid ℚ := { dims := (4, 6, 1), cell := fun i j => (i : ℚ) + 10 * (j : ℚ) }

/-- A grid of zeros. -/
def zeroGrid : Grid ℚ := Grid.zero (6, 8, 1)

/-- A velocity field of zeros. -/
def zeroField : VelocityField ℚ := VelocityField.zero (6, 8, 1)

/-- The added density of the scenario of spec §8: `1` at cell `(2, 2)`, zero elsewhere. -/
def spikeDensity : Grid ℚ :=
  { dims := (6, 8, 1), cell := fun i j => if i = 2 ∧ j = 2 then 1 else 0 }

/-- The added velocity of the scenario of spec §8: x component `1` everywhere,
y component `0`. -/
def uniformRight : VelocityField ℚ :=
  { c0 := { dims := (6, 8, 1), cell := fun _ _ => 1 }, c1 := Grid.zero (6, 8, 1) }

/-- A `4 × 4` system with diffusion constant `0` and viscosity `0`, as constructed. -/
def sys44 : FluidSystem ℚ := FluidSystem.new 4 4 0 0

section Loops

variable {α : Type}

@[simp] theorem Grid.get_eq (g : Grid α) (i j : Nat) : g.get i j = g.cell i j := rfl

@[simp] theorem Grid.set_cell (g : Grid α) (i j : Nat) (v : α) (p q : Nat) :
    (g.set i j v).cell p q = if p = i ∧ q = j then v else g.cell p q := rfl

@[simp] theorem Grid.set_dims (g : Grid α) (i j : Nat) (v : α) :
    (g.set i j v).dims = g.dims := rfl

theorem Grid.ext_cells {g k : Grid α} (hd : g.dims = k.dims)
    (hc : ∀ p q, g.cell p q = k.cell p q) : g = k := by
  cases g with
  | mk gd gc =>
    cases k with
    | mk kd kc =>
      simp only at hd hc
      have hfun : gc = kc := funext fun p => funext fun q => hc p q
      rw [hd, hfun]

/-- A loop over `j` that writes `f j` to cell `(i, j)`. -/
theorem forLoop_setRow_cell (i : Nat) (f : Nat → α) (cnt : Nat) :
    ∀ (lo : Nat) (t : Grid α) (p q : Nat),
      (forLoop lo cnt (fun j t => Grid.set t i j (f j)) t).cell p q =
        if p = i ∧ lo ≤ q ∧ q < lo + cnt then f q else t.cell p q := by
  induction cnt with
  | zero =>
    intro lo t p q
    have h0 : ¬ (p = i ∧ lo ≤ q ∧ q < lo + 0) := by omega
    rw [if_neg h0]; rfl
  | succ n ih =>
    intro lo t p q
    simp only [forLoop, ih, Grid.set_cell]
    by_cases h1 : p = i ∧ lo + 1 ≤ q ∧ q < lo + 1 + n
    · have h2 : p = i ∧ lo ≤ q ∧ q < lo + (n + 1) := by omega
      simp [h1, h2]
    · by_cases h3 : p = i ∧ q = lo
      · have h2 : p = i ∧ lo ≤ q ∧ q < lo + (n + 1) := by omega
        rw [if_neg h1, if_pos h3, if_pos h2, h3.2]
      · have h2 : ¬ (p = i ∧ lo ≤ q ∧ q < lo + (n + 1)) := by omega
        rw [if_neg h1, if_neg h3, if_neg h2]

theorem forLoop_setRow_dims (i : Nat) (f : Nat → α) (cnt : Nat) :
    ∀ (lo : Nat) (t : Grid α),
      (forLoop lo cnt (fun j t => Grid.set t i j (f j)) t).dims = t.dims := by
  induction cnt with
  | zero => intro lo t; rfl
  | succ n ih => intro lo t; simp only [forLoop, ih, Grid.set_dims]

/-- A loop nest over `i` and `j` that writes `f i j` to cell `(i, j)`. -/
theorem forLoop_setRect_cell (f : Nat → Nat → α) (jlo jcnt : Nat) (cnt : Nat) :
    ∀ (lo : Nat) (t : Grid α) (p q : Nat),
      (forLoop lo cnt (fun i t =>
          forLoop jlo jcnt (fun j t => Grid.set t i j (f i j)) t) t).cell p q =
        if (lo ≤ p ∧ p < lo + cnt) ∧ jlo ≤ q ∧ q < jlo + jcnt then f p q else t.cell p q := by
  induction cnt with
  | zero =>
    intro lo t p q
    have h0 : ¬ ((lo ≤ p ∧ p < lo + 0) ∧ jlo ≤ q ∧ q < jlo + jcnt) := by omega
    rw [if_neg h0]; rfl
  | succ n ih =>
    intro lo t p q
    simp only [forLoop, ih, forLoop_setRow_cell]
    by_cases h1 : (lo + 1 ≤ p ∧ p < lo + 1 + n) ∧ jlo ≤ q ∧ q < jlo + jcnt
    · have h2 : (lo ≤ p ∧ p < lo + (n + 1)) ∧ jlo ≤ q ∧ q < jlo + jcnt := by omega
      rw [if_pos h1, if_pos h2]
    · by_cases h3 : p = lo ∧ jlo ≤ q ∧ q < jlo + jcnt
      · have h2 : (lo ≤ p ∧ p < lo + (n + 1)) ∧ jlo ≤ q ∧ q < jlo + jcnt := by omega
        rw [if_neg h1, if_pos h3, if_pos h2, h3.1]
      · have h2 : ¬ ((lo ≤ p ∧ p < lo + (n + 1)) ∧ jlo ≤ q ∧ q < jlo + jcnt) := by omega
        rw [if_neg h1, if_neg h3, if_neg h2]

theorem forLoop_setRect_dims (f : Nat → Nat → α) (jlo jcnt : Nat) (cnt : Nat) :
    ∀ (lo : Nat) (t : Grid α),
      (forLoop lo cnt (fun i t =>
          forLoop jlo jcnt (fun j t => Grid.set t i j (f i j)) t) t).dims = t.dims := by
  induction cnt with
  | zero => intro lo t; rfl
  | succ n ih => intro lo t; simp only [forLoop, ih, forLoop_setRow_dims]

/-- A loop whose body ignores the counter iterates its body. -/
theorem forLoop_const {σ : Type} (g : σ → σ) (cnt : Nat) :
    ∀ (lo : Nat) (st : σ), forLoop lo cnt (fun _ st => g st) st = g^[cnt] st := by
  induction cnt with
  | zero => intro lo st; rfl
  | succ n ih => intro lo st; simp only [forLoop, ih, Function.iterate_succ_apply]

end Loops

/-! ## The relaxation solver -/

section Relaxation

variable {α : Type}

theorem FluidSystem.relaxInto_cell [Add α] [Mul α] [Div α] (s : FluidSystem α) (x_0 x : Grid α) (a c : α)
    (temp : Grid α) (p q : Nat) :
    (s.relaxInto x_0 x a c temp).cell p q =
      if 1 ≤ p ∧ p ≤ s.width ∧ 1 ≤ q ∧ q ≤ s.height then
        (x_0.cell p q + a * (x.cell (p - 1) q + x.cell (p + 1) q +
          x.cell p (q - 1) + x.cell p (q + 1))) / c
      else temp.cell p q := by
  unfold FluidSystem.relaxInto
  simp only [Grid.get_eq]
  rw [forLoop_setRect_cell (fun i j => (x_0.cell i j + a * (x.cell (i - 1) j +
    x.cell (i + 1) j + x.cell i (j - 1) + x.cell i (j + 1))) / c)]
  by_cases h : 1 ≤ p ∧ p ≤ s.width ∧ 1 ≤ q ∧ q ≤ s.height
  · have h2 : (1 ≤ p ∧ p < 1 + s.width) ∧ 1 ≤ q ∧ q < 1 + s.height := by omega
    rw [if_pos h, if_pos h2]
  · have h2 : ¬ ((1 ≤ p ∧ p < 1 + s.width) ∧ 1 ≤ q ∧ q < 1 + s.height) := by omega
    rw [if_neg h, if_neg h2]

theorem FluidSystem.relaxInto_dims [Add α] [Mul α] [Div α] (s : FluidSystem α) (x_0 x : Grid α) (a c : α)
    (temp : Grid α) : (s.relaxInto x_0 x a c temp).dims = temp.dims := by
  unfold FluidSystem.relaxInto
  simp only [Grid.get_eq]
  exact forLoop_setRect_dims (fun i j => (x_0.cell i j + a * (x.cell (i - 1) j +
    x.cell (i + 1) j + x.cell i (j - 1) + x.cell i (j + 1))) / c) 1 s.height s.width 1 temp

theorem FluidSystem.freshOutside_zero [Zero α] (s : FluidSystem α) :
    s.FreshOutside (Grid.zero s.fullDimensions) :=
  ⟨rfl, fun _ _ _ => rfl⟩

theorem FluidSystem.freshOutside_spec [Zero α] [Add α] [Mul α] [Div α] (s : FluidSystem α) (x_0 : Grid α) (a c : α)
    (x : Grid α) : s.FreshOutside (s.jacobiSweepSpec x_0 a c x) := by
  refine ⟨rfl, fun p q h => ?_⟩
  simp only [FluidSystem.jacobiSweepSpec, if_neg h]

theorem FluidSystem.relaxInto_eq_spec [Zero α] [Add α] [Mul α] [Div α] (s : FluidSystem α) (x_0 x : Grid α) (a c : α)
    (temp : Grid α) (ht : s.FreshOutside temp) :
    s.relaxInto x_0 x a c temp = s.jacobiSweepSpec x_0 a c x := by
  apply Grid.ext_cells
  · rw [FluidSystem.relaxInto_dims, ht.1]; rfl
  · intro p q
    rw [FluidSystem.relaxInto_cell]
    by_cases h : 1 ≤ p ∧ p ≤ s.width ∧ 1 ≤ q ∧ q ≤ s.height
    · simp only [FluidSystem.jacobiSweepSpec, if_pos h]
    · simp only [FluidSystem.jacobiSweepSpec, if_neg h, ht.2 p q h]

/-- The state of the sweep loop of `solvePoisson` after `cnt` sweeps. -/
theorem FluidSystem.sweepLoop_eq [Zero α] [Add α] [Mul α] [Div α] (s : FluidSystem α) (x_0 : Grid α) (a c : α)
    (policy : Grid α → Grid α) (cnt : Nat) :
    ∀ (lo : Nat) (x temp : Grid α), s.FreshOutside temp →
      (forLoop lo cnt (fun _ (st : Grid α × Grid α) =>
        (policy (s.relaxInto x_0 st.1 a c st.2), s.relaxInto x_0 st.1 a c st.2))
        (x, temp)).1 = (s.relaxStepSpec x_0 a c policy)^[cnt] x := by
  induction cnt with
  | zero => intro lo x temp _; rfl
  | succ n ih =>
    intro lo x temp ht
    simp only [forLoop, Function.iterate_succ_apply]
    rw [s.relaxInto_eq_spec x_0 x a c temp ht]
    exact ih (lo + 1) _ _ (s.freshOutside_spec x_0 a c x)

theorem FluidSystem.solvePoisson_eq_iterate [Zero α] [Add α] [Mul α] [Div α] (s : FluidSystem α) (x x_0 : Grid α) (a c : α)
    (policy : Grid α → Grid α) (n : Nat) :
    s.solvePoisson x x_0 a c policy n = (s.relaxStepSpec x_0 a c policy)^[n] x_0 :=
  s.sweepLoop_eq x_0 a c policy n 0 x_0 _ s.freshOutside_zero

/-- C1: for every source grid `x_0`, coefficients `a`, `c`, boundary policy and
iteration count `n`, `solvePoisson` returns exactly the grid obtained from `x_0` by
applying `n` times the step "Jacobi sweep, then boundary policy"; the sweep gives
every interior cell the value `(x_0[i,j] + a·(x[i-1,j] + x[i+1,j] + x[i,j-1] +
x[i,j+1])) / c` with the four neighbours read from the grid before the sweep; for
`n = 0` the result is `x_0` itself.  Whatever the out-parameter `x` held on entry
plays no part. -/
theorem C1_solvePoisson_is_jacobi_iteration [Zero α] [Add α] [Mul α] [Div α]
    (s : FluidSystem α) (x x_0 : Grid α) (a c : α) (policy : Grid α → Grid α) (n : Nat) :
    s.solvePoisson x x_0 a c policy n =
        (fun y => policy (s.jacobiSweepSpec x_0 a c y))^[n] x_0 ∧
      s.solvePoisson x x_0 a c policy 0 = x_0 ∧
      ∀ y i j, 1 ≤ i → i ≤ s.width → 1 ≤ j → j ≤ s.height →
        (s.jacobiSweepSpec x_0 a c y).cell i j =
          (x_0.cell i j + a * (y.cell (i - 1) j + y.cell (i + 1) j +
            y.cell i (j - 1) + y.cell i (j + 1))) / c := by
  refine ⟨s.solvePoisson_eq_iterate x x_0 a c policy n, rfl, ?_⟩
  intro y i j h1 h2 h3 h4
  have h : 1 ≤ i ∧ i ≤ s.width ∧ 1 ≤ j ∧ j ≤ s.height := ⟨h1, h2, h3, h4⟩
  simp only [FluidSystem.jacobiSweepSpec, if_pos h]

end Relaxation


section Boundaries

variable {α : Type}

theorem forLoop_mirrorCols_cell [Mul α] (k : α) (w : Nat) (hw : 1 ≤ w) (cnt : Nat) :
    ∀ (lo : Nat) (t : Grid α) (p q : Nat),
      (forLoop lo cnt (fun j (grid : Grid α) =>
          (grid.set 0 j (k * grid.cell 1 j)).set (w + 1) j (k * grid.cell w j)) t).cell p q =
        if p = 0 ∧ lo ≤ q ∧ q < lo + cnt then k * t.cell 1 q
        else if p = w + 1 ∧ lo ≤ q ∧ q < lo + cnt then k * t.cell w q
        else t.cell p q := by
  induction cnt with
  | zero =>
    intro lo t p q
    have h0 : ¬ (p = 0 ∧ lo ≤ q ∧ q < lo + 0) := by omega
    have h1 : ¬ (p = w + 1 ∧ lo ≤ q ∧ q < lo + 0) := by omega
    rw [if_neg h0, if_neg h1]; rfl
  | succ n ih =>
    intro lo t p q
    simp only [forLoop]
    rw [ih]
    simp only [Grid.set_cell]
    have e1 : ¬ (1 = w + 1 ∧ q = lo) := by omega
    have e2 : ¬ ((1:Nat) = 0 ∧ q = lo) := by omega
    have e3 : ¬ (w = w + 1 ∧ q = lo) := by omega
    have e4 : ¬ (w = 0 ∧ q = lo) := by omega
    rw [if_neg e1, if_neg e2, if_neg e3, if_neg e4]
    by_cases c1 : p = 0 ∧ lo + 1 ≤ q ∧ q < lo + 1 + n
    · have c2 : p = 0 ∧ lo ≤ q ∧ q < lo + (n + 1) := by omega
      rw [if_pos c1, if_pos c2]
    · rw [if_neg c1]
      by_cases c3 : p = w + 1 ∧ lo + 1 ≤ q ∧ q < lo + 1 + n
      · have c4 : ¬ (p = 0 ∧ lo ≤ q ∧ q < lo + (n + 1)) := by omega
        have c5 : p = w + 1 ∧ lo ≤ q ∧ q < lo + (n + 1) := by omega
        rw [if_pos c3, if_neg c4, if_pos c5]
      · rw [if_neg c3]
        by_cases c6 : p = w + 1 ∧ q = lo
        · have c4 : ¬ (p = 0 ∧ lo ≤ q ∧ q < lo + (n + 1)) := by omega
          have c5 : p = w + 1 ∧ lo ≤ q ∧ q < lo + (n + 1) := by omega
          rw [if_pos c6, if_neg c4, if_pos c5, c6.2]
        · rw [if_neg c6]
          by_cases c7 : p = 0 ∧ q = lo
          · have c2 : p = 0 ∧ lo ≤ q ∧ q < lo + (n + 1) := by omega
            rw [if_pos c7, if_pos c2, c7.2]
          · have c4 : ¬ (p = 0 ∧ lo ≤ q ∧ q < lo + (n + 1)) := by omega
            have c5 : ¬ (p = w + 1 ∧ lo ≤ q ∧ q < lo + (n + 1)) := by omega
            rw [if_neg c7, if_neg c4, if_neg c5]

theorem forLoop_mirrorRows_cell [Mul α] (k : α) (h : Nat) (hh : 1 ≤ h) (cnt : Nat) :
    ∀ (lo : Nat) (t : Grid α) (p q : Nat),
      (forLoop lo cnt (fun i (grid : Grid α) =>
          (grid.set i 0 (k * grid.cell i 1)).set i (h + 1) (k * grid.cell i h)) t).cell p q =
        if q = 0 ∧ lo ≤ p ∧ p < lo + cnt then k * t.cell p 1
        else if q = h + 1 ∧ lo ≤ p ∧ p < lo + cnt then k * t.cell p h
        else t.cell p q := by
  induction cnt with
  | zero =>
    intro lo t p q
    have h0 : ¬ (q = 0 ∧ lo ≤ p ∧ p < lo + 0) := by omega
    have h1 : ¬ (q = h + 1 ∧ lo ≤ p ∧ p < lo + 0) := by omega
    rw [if_neg h0, if_neg h1]; rfl
  | succ n ih =>
    intro lo t p q
    simp only [forLoop]
    rw [ih]
    simp only [Grid.set_cell]
    have e1 : ¬ (p = lo ∧ 1 = h + 1) := by omega
    have e2 : ¬ (p = lo ∧ (1:Nat) = 0) := by omega
    have e3 : ¬ (p = lo ∧ h = h + 1) := by omega
    have e4 : ¬ (p = lo ∧ h = 0) := by omega
    rw [if_neg e1, if_neg e2, if_neg e3, if_neg e4]
    by_cases c1 : q = 0 ∧ lo + 1 ≤ p ∧ p < lo + 1 + n
    · have c2 : q = 0 ∧ lo ≤ p ∧ p < lo + (n + 1) := by omega
      rw [if_pos c1, if_pos c2]
    · rw [if_neg c1]
      by_cases c3 : q = h + 1 ∧ lo + 1 ≤ p ∧ p < lo + 1 + n
      · have c4 : ¬ (q = 0 ∧ lo ≤ p ∧ p < lo + (n + 1)) := by omega
        have c5 : q = h + 1 ∧ lo ≤ p ∧ p < lo + (n + 1) := by omega
        rw [if_pos c3, if_neg c4, if_pos c5]
      · rw [if_neg c3]
        by_cases c6 : p = lo ∧ q = h + 1
        · have c4 : ¬ (q = 0 ∧ lo ≤ p ∧ p < lo + (n + 1)) := by omega
          have c5 : q = h + 1 ∧ lo ≤ p ∧ p < lo + (n + 1) := by omega
          rw [if_pos c6, if_neg c4, if_pos c5, c6.1]
        · rw [if_neg c6]
          by_cases c7 : p = lo ∧ q = 0
          · have c2 : q = 0 ∧ lo ≤ p ∧ p < lo + (n + 1) := by omega
            rw [if_pos c7, if_pos c2, c7.1]
          · have c4 : ¬ (q = 0 ∧ lo ≤ p ∧ p < lo + (n + 1)) := by omega
            have c5 : ¬ (q = h + 1 ∧ lo ≤ p ∧ p < lo + (n + 1)) := by omega
            rw [if_neg c7, if_neg c4, if_neg c5]

/-- With at least one interior column, the second write of the first loop of
`setBoundaries` reads a cell the first write left alone. -/
theorem mirrorCols_body_eq [Mul α] (k : α) (w : Nat) (hw : 1 ≤ w) :
    (fun j (grid : Grid α) =>
      (grid.set 0 j (k * grid.get 1 j)).set (w + 1) j
        (k * (grid.set 0 j (k * grid.get 1 j)).get w j)) =
    (fun j (grid : Grid α) =>
      (grid.set 0 j (k * grid.cell 1 j)).set (w + 1) j (k * grid.cell w j)) := by
  funext j grid
  have e : w ≠ 0 := by omega
  simp [e]

theorem mirrorRows_body_eq [Mul α] (k : α) (h : Nat) (hh : 1 ≤ h) :
    (fun i (grid : Grid α) =>
      (grid.set i 0 (k * grid.get i 1)).set i (h + 1)
        (k * (grid.set i 0 (k * grid.get i 1)).get i h)) =
    (fun i (grid : Grid α) =>
      (grid.set i 0 (k * grid.cell i 1)).set i (h + 1) (k * grid.cell i h)) := by
  funext i grid
  have e : h ≠ 0 := by omega
  simp [e]

/-- Every cell of a grid after `setBoundaries`, in terms of the grid before. -/
theorem FluidSystem.setBoundaries_cell [One α] [Neg α] [Mul α] (s : FluidSystem α)
    (grid : Grid α) (b : Int) (hw : 1 ≤ s.width) (hh : 1 ≤ s.height) (p q : Nat) :
    (s.setBoundaries grid b).cell p q =
      if q = 0 ∧ 1 ≤ p ∧ p ≤ s.width then (if b = 2 then -1 else 1) * grid.cell p 1
      else if q = s.height + 1 ∧ 1 ≤ p ∧ p ≤ s.width then
        (if b = 2 then -1 else 1) * grid.cell p s.height
      else if p = 0 ∧ 1 ≤ q ∧ q ≤ s.height then (if b = 1 then -1 else 1) * grid.cell 1 q
      else if p = s.width + 1 ∧ 1 ≤ q ∧ q ≤ s.height then
        (if b = 1 then -1 else 1) * grid.cell s.width q
      else grid.cell p q := by
  unfold FluidSystem.setBoundaries
  simp only []
  rw [mirrorCols_body_eq _ _ hw, mirrorRows_body_eq _ _ hh, forLoop_mirrorRows_cell _ _ hh]
  simp only [forLoop_mirrorCols_cell _ _ hw]
  by_cases c1 : q = 0 ∧ 1 ≤ p ∧ p ≤ s.width
  · have d1 : q = 0 ∧ 1 ≤ p ∧ p < 1 + s.width := by omega
    have d2 : ¬ (p = 0 ∧ 1 ≤ 1 ∧ 1 < 1 + s.height) := by omega
    have d3 : ¬ (p = s.width + 1 ∧ 1 ≤ 1 ∧ 1 < 1 + s.height) := by omega
    rw [if_pos c1, if_pos d1, if_neg d2, if_neg d3]
  · have d1 : ¬ (q = 0 ∧ 1 ≤ p ∧ p < 1 + s.width) := by omega
    rw [if_neg c1, if_neg d1]
    by_cases c2 : q = s.height + 1 ∧ 1 ≤ p ∧ p ≤ s.width
    · have d2 : q = s.height + 1 ∧ 1 ≤ p ∧ p < 1 + s.width := by omega
      have d3 : ¬ (p = 0 ∧ 1 ≤ s.height ∧ s.height < 1 + s.height) := by omega
      have d4 : ¬ (p = s.width + 1 ∧ 1 ≤ s.height ∧ s.height < 1 + s.height) := by omega
      rw [if_pos c2, if_pos d2, if_neg d3, if_neg d4]
    · have d2 : ¬ (q = s.height + 1 ∧ 1 ≤ p ∧ p < 1 + s.width) := by omega
      rw [if_neg c2, if_neg d2]
      by_cases c3 : p = 0 ∧ 1 ≤ q ∧ q ≤ s.height
      · have d3 : p = 0 ∧ 1 ≤ q ∧ q < 1 + s.height := by omega
        rw [if_pos c3, if_pos d3]
      · have d3 : ¬ (p = 0 ∧ 1 ≤ q ∧ q < 1 + s.height) := by omega
        rw [if_neg c3, if_neg d3]
        by_cases c4 : p = s.width + 1 ∧ 1 ≤ q ∧ q ≤ s.height
        · have d4 : p = s.width + 1 ∧ 1 ≤ q ∧ q < 1 + s.height := by omega
          rw [if_pos c4, if_pos d4]
        · have d4 : ¬ (p = s.width + 1 ∧ 1 ≤ q ∧ q < 1 + s.height) := by omega
          rw [if_neg c4, if_neg d4]

theorem FluidSystem.fill_eq_setBoundaries [One α] [Neg α] [Mul α] (s : FluidSystem α)
    (p : BoundaryPolicy) (grid : Grid α) :
    p.fill s grid = s.setBoundaries grid
      (match p with
        | .continuity => 0
        | .horizontalReflective => 1
        | .verticalReflective => 2) := by
  cases p <;> rfl

/-- Every cell of a grid after the boundary fill of a policy. -/
theorem FluidSystem.fill_cell [One α] [Neg α] [Mul α] (s : FluidSystem α)
    (p : BoundaryPolicy) (grid : Grid α) (hw : 1 ≤ s.width) (hh : 1 ≤ s.height)
    (i j : Nat) :
    (p.fill s grid).cell i j =
      if j = 0 ∧ 1 ≤ i ∧ i ≤ s.width then p.signY * grid.cell i 1
      else if j = s.height + 1 ∧ 1 ≤ i ∧ i ≤ s.width then p.signY * grid.cell i s.height
      else if i = 0 ∧ 1 ≤ j ∧ j ≤ s.height then p.signX * grid.cell 1 j
      else if i = s.width + 1 ∧ 1 ≤ j ∧ j ≤ s.height then p.signX * grid.cell s.width j
      else grid.cell i j := by
  rw [s.fill_eq_setBoundaries, s.setBoundaries_cell _ _ hw hh]
  cases p <;> simp [BoundaryPolicy.signX, BoundaryPolicy.signY]

/-- A property of the state that every iteration keeps holds after the loop. -/
theorem forLoop_induct {σ : Type} (P : σ → Prop) (body : Nat → σ → σ) (cnt : Nat) :
    ∀ (lo : Nat) (st : σ), P st →
      (∀ k st, lo ≤ k → k < lo + cnt → P st → P (body k st)) →
      P (forLoop lo cnt body st) := by
  induction cnt with
  | zero => intro lo st h0 _; exact h0
  | succ n ih =>
    intro lo st h0 hstep
    simp only [forLoop]
    apply ih (lo + 1) (body lo st) (hstep lo st (Nat.le_refl lo) (by omega) h0)
    intro k st1 hk1 hk2 hP
    exact hstep k st1 (by omega) (by omega) hP

/-- The cells `setBoundaries` writes: the non-corner border cells. -/
theorem FluidSystem.setBoundaries_cell_unwritten [One α] [Neg α] [Mul α]
    (s : FluidSystem α) (grid : Grid α) (b : Int) (p q : Nat)
    (h1 : ¬ ((p = 0 ∨ p = s.width + 1) ∧ 1 ≤ q ∧ q ≤ s.height))
    (h2 : ¬ ((q = 0 ∨ q = s.height + 1) ∧ 1 ≤ p ∧ p ≤ s.width)) :
    (s.setBoundaries grid b).cell p q = grid.cell p q := by
  unfold FluidSystem.setBoundaries
  simp only []
  apply forLoop_induct (fun g : Grid α => g.cell p q = grid.cell p q)
  · apply forLoop_induct (fun g : Grid α => g.cell p q = grid.cell p q)
    · rfl
    · intro k g hk1 hk2 hg
      have e1 : ¬ (p = s.width + 1 ∧ q = k) := by omega
      have e2 : ¬ (p = 0 ∧ q = k) := by omega
      simp only [Grid.set_cell, if_neg e1, if_neg e2]
      exact hg
  · intro k g hk1 hk2 hg
    have e1 : ¬ (p = k ∧ q = s.height + 1) := by omega
    have e2 : ¬ (p = k ∧ q = 0) := by omega
    simp only [Grid.set_cell, if_neg e1, if_neg e2]
    exact hg

theorem FluidSystem.setBoundaries_dims [One α] [Neg α] [Mul α]
    (s : FluidSystem α) (grid : Grid α) (b : Int) :
    (s.setBoundaries grid b).dims = grid.dims := by
  unfold FluidSystem.setBoundaries
  simp only []
  apply forLoop_induct (fun g : Grid α => g.dims = grid.dims)
  · apply forLoop_induct (fun g : Grid α => g.dims = grid.dims)
    · rfl
    · intro k g _ _ hg
      simp only [Grid.set_dims]
      exact hg
  · intro k g _ _ hg
    simp only [Grid.set_dims]
    exact hg

theorem FluidSystem.fill_cell_unwritten [One α] [Neg α] [Mul α]
    (s : FluidSystem α) (p : BoundaryPolicy) (grid : Grid α) (i j : Nat)
    (h1 : ¬ ((i = 0 ∨ i = s.width + 1) ∧ 1 ≤ j ∧ j ≤ s.height))
    (h2 : ¬ ((j = 0 ∨ j = s.height + 1) ∧ 1 ≤ i ∧ i ≤ s.width)) :
    (p.fill s grid).cell i j = grid.cell i j := by
  rw [s.fill_eq_setBoundaries]
  exact s.setBoundaries_cell_unwritten grid _ i j h1 h2

/-- C3: for every grid of a system with `width ≥ 1` and `height ≥ 1`, after the
boundary fill with policy `p`, for every `j` in `1..height` the cells `(0, j)` and
`(width+1, j)` hold `s_x` times the interior cells `(1, j)` and `(width, j)` of the
grid before the call, and for every `i` in `1..width` the cells `(i, 0)` and
`(i, height+1)` hold `s_y` times the interior cells `(i, 1)` and `(i, height)`; the
signs `(s_x, s_y)` are `(1, 1)` for continuity, `(-1, 1)` for horizontal-reflective
and `(1, -1)` for vertical-reflective. -/
theorem C3_boundary_fill_signed_mirror [One α] [Neg α] [Mul α] (s : FluidSystem α)
    (grid : Grid α) (p : BoundaryPolicy) (hw : 1 ≤ s.width) (hh : 1 ≤ s.height) :
    (∀ j, 1 ≤ j → j ≤ s.height →
        (p.fill s grid).cell 0 j = p.signX * grid.cell 1 j ∧
        (p.fill s grid).cell (s.width + 1) j = p.signX * grid.cell s.width j) ∧
      (∀ i, 1 ≤ i → i ≤ s.width →
        (p.fill s grid).cell i 0 = p.signY * grid.cell i 1 ∧
        (p.fill s grid).cell i (s.height + 1) = p.signY * grid.cell i s.height) ∧
      ((BoundaryPolicy.continuity.signX : α) = 1 ∧
        (BoundaryPolicy.continuity.signY : α) = 1 ∧
        (BoundaryPolicy.horizontalReflective.signX : α) = -1 ∧
        (BoundaryPolicy.horizontalReflective.signY : α) = 1 ∧
        (BoundaryPolicy.verticalReflective.signX : α) = 1 ∧
        (BoundaryPolicy.verticalReflective.signY : α) = -1) := by
  refine ⟨fun j h1 h2 => ⟨?_, ?_⟩, fun i h1 h2 => ⟨?_, ?_⟩, rfl, rfl, rfl, rfl, rfl, rfl⟩
  · rw [s.fill_cell p grid hw hh]
    have c1 : ¬ (j = 0 ∧ 1 ≤ 0 ∧ 0 ≤ s.width) := by omega
    have c2 : ¬ (j = s.height + 1 ∧ 1 ≤ 0 ∧ 0 ≤ s.width) := by omega
    have c3 : (0 = 0 ∧ 1 ≤ j ∧ j ≤ s.height) := by omega
    rw [if_neg c1, if_neg c2, if_pos c3]
  · rw [s.fill_cell p grid hw hh]
    have c1 : ¬ (j = 0 ∧ 1 ≤ s.width + 1 ∧ s.width + 1 ≤ s.width) := by omega
    have c2 : ¬ (j = s.height + 1 ∧ 1 ≤ s.width + 1 ∧ s.width + 1 ≤ s.width) := by omega
    have c3 : ¬ (s.width + 1 = 0 ∧ 1 ≤ j ∧ j ≤ s.height) := by omega
    have c4 : (s.width + 1 = s.width + 1 ∧ 1 ≤ j ∧ j ≤ s.height) := by omega
    rw [if_neg c1, if_neg c2, if_neg c3, if_pos c4]
  · rw [s.fill_cell p grid hw hh]
    have c1 : (0 = 0 ∧ 1 ≤ i ∧ i ≤ s.width) := by omega
    rw [if_pos c1]
  · rw [s.fill_cell p grid hw hh]
    have c1 : ¬ (s.height + 1 = 0 ∧ 1 ≤ i ∧ i ≤ s.width) := by omega
    have c2 : (s.height + 1 = s.height + 1 ∧ 1 ≤ i ∧ i ≤ s.width) := by omega
    rw [if_neg c1, if_pos c2]

/-- C3 at a concrete input: the `2 × 2` system, the ramp grid, the
horizontal-reflective policy. -/
theorem C3_boundary_fill_signed_mirror_witness :
    (1 ≤ sys22.width ∧ 1 ≤ sys22.height) ∧
    ((∀ j, 1 ≤ j → j ≤ sys22.height →
        (BoundaryPolicy.horizontalReflective.fill sys22 rampGrid).cell 0 j =
          BoundaryPolicy.horizontalReflective.signX * rampGrid.cell 1 j ∧
        (BoundaryPolicy.horizontalReflective.fill sys22 rampGrid).cell (sys22.width + 1) j =
          BoundaryPolicy.horizontalReflective.signX * rampGrid.cell sys22.width j) ∧
      (∀ i, 1 ≤ i → i ≤ sys22.width →
        (BoundaryPolicy.horizontalReflective.fill sys22 rampGrid).cell i 0 =
          BoundaryPolicy.horizontalReflective.signY * rampGrid.cell i 1 ∧
        (BoundaryPolicy.horizontalReflective.fill sys22 rampGrid).cell i (sys22.height + 1) =
          BoundaryPolicy.horizontalReflective.signY * rampGrid.cell i sys22.height) ∧
      ((BoundaryPolicy.continuity.signX : ℚ) = 1 ∧
        (BoundaryPolicy.continuity.signY : ℚ) = 1 ∧
        (BoundaryPolicy.horizontalReflective.signX : ℚ) = -1 ∧
        (BoundaryPolicy.horizontalReflective.signY : ℚ) = 1 ∧
        (BoundaryPolicy.verticalReflective.signX : ℚ) = 1 ∧
        (BoundaryPolicy.verticalReflective.signY : ℚ) = -1)) :=
  ⟨⟨by decide, by decide⟩,
    C3_boundary_fill_signed_mirror sys22 rampGrid BoundaryPolicy.horizontalReflective
      (by decide) (by decide)⟩

/-- C9, as stated, fails: two grids that differ only in the corner cell `(0,0)` (it
holds `7` in one and `8` in the other) still differ there after the boundary fill, so
the corner's value after the call is the value it held before. -/
theorem C9_corner_keeps_value_counterexample :
    (BoundaryPolicy.continuity.fill sys22 (rampGrid.set 0 0 7)).cell 0 0 = 7 ∧
      (BoundaryPolicy.continuity.fill sys22 (rampGrid.set 0 0 8)).cell 0 0 = 8 := by
  constructor
  · rw [FluidSystem.fill_cell_unwritten sys22 _ _ 0 0 (by omega) (by omega)]
    simp
  · rw [FluidSystem.fill_cell_unwritten sys22 _ _ 0 0 (by omega) (by omega)]
    simp

/-- C9, amended: the boundary fill writes the non-corner border cells only.  For every
system, grid and policy the four corner cells `(0,0)`, `(0,height+1)`, `(width+1,0)`
and `(width+1,height+1)` keep the value they held before the call (neither pass
writes them), and so does every cell that is not a non-corner border cell. -/
theorem C9_boundary_fill_leaves_corners [One α] [Neg α] [Mul α] (s : FluidSystem α)
    (grid : Grid α) (p : BoundaryPolicy) :
    (p.fill s grid).cell 0 0 = grid.cell 0 0 ∧
      (p.fill s grid).cell 0 (s.height + 1) = grid.cell 0 (s.height + 1) ∧
      (p.fill s grid).cell (s.width + 1) 0 = grid.cell (s.width + 1) 0 ∧
      (p.fill s grid).cell (s.width + 1) (s.height + 1) =
        grid.cell (s.width + 1) (s.height + 1) ∧
      ∀ i j, ¬ ((i = 0 ∨ i = s.width + 1) ∧ 1 ≤ j ∧ j ≤ s.height) →
        ¬ ((j = 0 ∨ j = s.height + 1) ∧ 1 ≤ i ∧ i ≤ s.width) →
        (p.fill s grid).cell i j = grid.cell i j :=
  ⟨s.fill_cell_unwritten p grid _ _ (by omega) (by omega),
    s.fill_cell_unwritten p grid _ _ (by omega) (by omega),
    s.fill_cell_unwritten p grid _ _ (by omega) (by omega),
    s.fill_cell_unwritten p grid _ _ (by omega) (by omega),
    fun i j h1 h2 => s.fill_cell_unwritten p grid i j h1 h2⟩

/-- C10 on the code: the grids of a system constructed with `width = 4` and
`height = 4` have dimensions `6 × 8 × 1`, two rows more than `(width+2) × (height+2)`:
the constructor passes `fullHeight + 2`, and `fullHeight` is `height + 2` already. -/
theorem C10_constructed_grid_dimensions :
    sys44.fullWidth = 4 + 2 ∧ sys44.fullHeight = 4 + 2 ∧
      sys44.fullDimensions = (6, 8, 1) ∧
      sys44.density.dims = (6, 8, 1) ∧ sys44.velocity.c0.dims = (6, 8, 1) ∧
      sys44.velocity.c1.dims = (6, 8, 1) ∧ sys44.densityPrev.dims = (6, 8, 1) ∧
      sys44.velocityPrev.c0.dims = (6, 8, 1) ∧ sys44.velocityPrev.c1.dims = (6, 8, 1) ∧
      (Grid.zero sys44.fullDimensions : Grid ℚ).dims ≠ (4 + 2, 4 + 2, 1) := by
  refine ⟨rfl, rfl, rfl, rfl, rfl, rfl, rfl, rfl, rfl, ?_⟩
  decide

end Boundaries


/-! ## Divergence, gradient, projection -/

section Projection

variable {α : Type}

/-- A loop on a vector field that treats the two components separately is a pair of
loops. -/
theorem forLoop_pair (F G : Nat → Grid α → Grid α) (cnt : Nat) :
    ∀ (lo : Nat) (o : VelocityField α),
      forLoop lo cnt (fun k (o : VelocityField α) =>
        ({ c0 := F k o.c0, c1 := G k o.c1 } : VelocityField α)) o =
      { c0 := forLoop lo cnt F o.c0, c1 := forLoop lo cnt G o.c1 } := by
  induction cnt with
  | zero => intro lo o; rfl
  | succ n ih => intro lo o; simp only [forLoop, ih]

theorem forLoop_pair_nest (F G : Nat → Nat → Grid α → Grid α) (jlo jcnt cnt : Nat)
    (lo : Nat) (o : VelocityField α) :
    forLoop lo cnt (fun i (o : VelocityField α) =>
      forLoop jlo jcnt (fun j (o : VelocityField α) =>
        ({ c0 := F i j o.c0, c1 := G i j o.c1 } : VelocityField α)) o) o =
    { c0 := forLoop lo cnt (fun i g => forLoop jlo jcnt (F i) g) o.c0,
      c1 := forLoop lo cnt (fun i g => forLoop jlo jcnt (G i) g) o.c1 } := by
  have inner : (fun i (o : VelocityField α) =>
      forLoop jlo jcnt (fun j (o : VelocityField α) =>
        ({ c0 := F i j o.c0, c1 := G i j o.c1 } : VelocityField α)) o) =
      (fun i (o : VelocityField α) =>
        ({ c0 := (fun i g => forLoop jlo jcnt (F i) g) i o.c0,
           c1 := (fun i g => forLoop jlo jcnt (G i) g) i o.c1 } : VelocityField α)) := by
    funext i o
    exact forLoop_pair (F i) (G i) jcnt jlo o
  rw [inner]
  exact forLoop_pair _ _ cnt lo o

theorem FluidSystem.grad_eq [Field α] (s : FluidSystem α) (out : VelocityField α)
    (input : Grid α) :
    s.grad out input =
      { c0 := forLoop 1 s.width (fun i g => forLoop 1 s.height (fun j g =>
          Grid.set g i j (1 / 2 * (input.cell (i + 1) j - input.cell (i - 1) j))) g) out.c0,
        c1 := forLoop 1 s.width (fun i g => forLoop 1 s.height (fun j g =>
          Grid.set g i j (1 / 2 * (input.cell i (j + 1) - input.cell i (j - 1)))) g) out.c1 } :=
  forLoop_pair_nest
    (fun i j g => Grid.set g i j (1 / 2 * (input.cell (i + 1) j - input.cell (i - 1) j)))
    (fun i j g => Grid.set g i j (1 / 2 * (input.cell i (j + 1) - input.cell i (j - 1))))
    1 s.height s.width 1 out

theorem FluidSystem.grad_c0_cell [Field α] (s : FluidSystem α) (out : VelocityField α)
    (input : Grid α) (p q : Nat) :
    (s.grad out input).c0.cell p q =
      if 1 ≤ p ∧ p ≤ s.width ∧ 1 ≤ q ∧ q ≤ s.height then
        1 / 2 * (input.cell (p + 1) q - input.cell (p - 1) q)
      else out.c0.cell p q := by
  rw [s.grad_eq]
  simp only []
  rw [forLoop_setRect_cell (fun i j => 1 / 2 * (input.cell (i + 1) j - input.cell (i - 1) j))]
  by_cases h : 1 ≤ p ∧ p ≤ s.width ∧ 1 ≤ q ∧ q ≤ s.height
  · have h2 : (1 ≤ p ∧ p < 1 + s.width) ∧ 1 ≤ q ∧ q < 1 + s.height := by omega
    rw [if_pos h, if_pos h2]
  · have h2 : ¬ ((1 ≤ p ∧ p < 1 + s.width) ∧ 1 ≤ q ∧ q < 1 + s.height) := by omega
    rw [if_neg h, if_neg h2]

theorem FluidSystem.grad_c1_cell [Field α] (s : FluidSystem α) (out : VelocityField α)
    (input : Grid α) (p q : Nat) :
    (s.grad out input).c1.cell p q =
      if 1 ≤ p ∧ p ≤ s.width ∧ 1 ≤ q ∧ q ≤ s.height then
        1 / 2 * (input.cell p (q + 1) - input.cell p (q - 1))
      else out.c1.cell p q := by
  rw [s.grad_eq]
  simp only []
  rw [forLoop_setRect_cell (fun i j => 1 / 2 * (input.cell i (j + 1) - input.cell i (j - 1)))]
  by_cases h : 1 ≤ p ∧ p ≤ s.width ∧ 1 ≤ q ∧ q ≤ s.height
  · have h2 : (1 ≤ p ∧ p < 1 + s.width) ∧ 1 ≤ q ∧ q < 1 + s.height := by omega
    rw [if_pos h, if_pos h2]
  · have h2 : ¬ ((1 ≤ p ∧ p < 1 + s.width) ∧ 1 ≤ q ∧ q < 1 + s.height) := by omega
    rw [if_neg h, if_neg h2]

/-- The two statements of the body of `div` amount to one write. -/
theorem Grid.set_set_add [Add α] (g : Grid α) (i j : Nat) (u v : α) :
    (g.set i j u).set i j ((g.set i j u).cell i j + v) = g.set i j (u + v) := by
  apply Grid.ext_cells
  · rfl
  · intro p q
    by_cases h : p = i ∧ q = j
    · simp [h]
    · simp [h]

theorem FluidSystem.div_cell [Field α] (s : FluidSystem α) (out : Grid α)
    (input : VelocityField α) (p q : Nat) :
    (s.div out input).cell p q =
      if 1 ≤ p ∧ p ≤ s.width ∧ 1 ≤ q ∧ q ≤ s.height then
        1 / 2 * (input.c0.cell (p + 1) q - input.c0.cell (p - 1) q) +
          1 / 2 * (input.c1.cell p (q + 1) - input.c1.cell p (q - 1))
      else out.cell p q := by
  unfold FluidSystem.div
  simp only [Grid.get_eq, Grid.set_set_add]
  rw [forLoop_setRect_cell (fun i j =>
    1 / 2 * (input.c0.cell (i + 1) j - input.c0.cell (i - 1) j) +
      1 / 2 * (input.c1.cell i (j + 1) - input.c1.cell i (j - 1)))]
  by_cases h : 1 ≤ p ∧ p ≤ s.width ∧ 1 ≤ q ∧ q ≤ s.height
  · have h2 : (1 ≤ p ∧ p < 1 + s.width) ∧ 1 ≤ q ∧ q < 1 + s.height := by omega
    rw [if_pos h, if_pos h2]
  · have h2 : ¬ ((1 ≤ p ∧ p < 1 + s.width) ∧ 1 ≤ q ∧ q < 1 + s.height) := by omega
    rw [if_neg h, if_neg h2]

theorem FluidSystem.project_eq [Field α] (s : FluidSystem α) (n : Nat)
    (v : VelocityField α) :
    s.project n v =
      { c0 := BoundaryPolicy.horizontalReflective.fill s
          (v.c0.sub (s.grad (VelocityField.zero s.fullDimensions) (s.pressure n v)).c0),
        c1 := BoundaryPolicy.verticalReflective.fill s
          (v.c1.sub (s.grad (VelocityField.zero s.fullDimensions) (s.pressure n v)).c1) } :=
  rfl

/-- After a boundary fill the non-corner border cells mirror the interior of the
filled grid itself. -/
theorem FluidSystem.fill_mirror_self [Ring α] (s : FluidSystem α) (p : BoundaryPolicy)
    (grid : Grid α) (hw : 1 ≤ s.width) (hh : 1 ≤ s.height) :
    (∀ j, 1 ≤ j → j ≤ s.height →
        (p.fill s grid).cell 0 j = p.signX * (p.fill s grid).cell 1 j ∧
        (p.fill s grid).cell (s.width + 1) j =
          p.signX * (p.fill s grid).cell s.width j) ∧
      (∀ i, 1 ≤ i → i ≤ s.width →
        (p.fill s grid).cell i 0 = p.signY * (p.fill s grid).cell i 1 ∧
        (p.fill s grid).cell i (s.height + 1) =
          p.signY * (p.fill s grid).cell i s.height) := by
  refine ⟨fun j h1 h2 => ⟨?_, ?_⟩, fun i h1 h2 => ⟨?_, ?_⟩⟩
  · rw [s.fill_cell_unwritten p grid 1 j (by omega) (by omega), s.fill_cell p grid hw hh]
    have c1 : ¬ (j = 0 ∧ 1 ≤ 0 ∧ 0 ≤ s.width) := by omega
    have c2 : ¬ (j = s.height + 1 ∧ 1 ≤ 0 ∧ 0 ≤ s.width) := by omega
    have c3 : (0 = 0 ∧ 1 ≤ j ∧ j ≤ s.height) := by omega
    rw [if_neg c1, if_neg c2, if_pos c3]
  · rw [s.fill_cell_unwritten p grid s.width j (by omega) (by omega),
      s.fill_cell p grid hw hh]
    have c1 : ¬ (j = 0 ∧ 1 ≤ s.width + 1 ∧ s.width + 1 ≤ s.width) := by omega
    have c2 : ¬ (j = s.height + 1 ∧ 1 ≤ s.width + 1 ∧ s.width + 1 ≤ s.width) := by omega
    have c3 : ¬ (s.width + 1 = 0 ∧ 1 ≤ j ∧ j ≤ s.height) := by omega
    have c4 : (s.width + 1 = s.width + 1 ∧ 1 ≤ j ∧ j ≤ s.height) := by omega
    rw [if_neg c1, if_neg c2, if_neg c3, if_pos c4]
  · rw [s.fill_cell_unwritten p grid i 1 (by omega) (by omega), s.fill_cell p grid hw hh]
    have c1 : (0 = 0 ∧ 1 ≤ i ∧ i ≤ s.width) := by omega
    rw [if_pos c1]
  · rw [s.fill_cell_unwritten p grid i s.height (by omega) (by omega),
      s.fill_cell p grid hw hh]
    have c1 : ¬ (s.height + 1 = 0 ∧ 1 ≤ i ∧ i ≤ s.width) := by omega
    have c2 : (s.height + 1 = s.height + 1 ∧ 1 ≤ i ∧ i ≤ s.width) := by omega
    rw [if_neg c1, if_pos c2]

theorem FluidSystem.project_reflective [Field α] (s : FluidSystem α) (n : Nat)
    (v : VelocityField α) (hw : 1 ≤ s.width) (hh : 1 ≤ s.height) :
    s.ReflectiveRules (s.project n v) := by
  rw [s.project_eq]
  have hx := s.fill_mirror_self BoundaryPolicy.horizontalReflective
    (v.c0.sub (s.grad (VelocityField.zero s.fullDimensions) (s.pressure n v)).c0) hw hh
  have hy := s.fill_mirror_self BoundaryPolicy.verticalReflective
    (v.c1.sub (s.grad (VelocityField.zero s.fullDimensions) (s.pressure n v)).c1) hw hh
  simp only [BoundaryPolicy.signX, BoundaryPolicy.signY, neg_one_mul, one_mul] at hx hy
  exact ⟨fun j h1 h2 => ⟨(hx.1 j h1 h2).1, (hx.1 j h1 h2).2, (hy.1 j h1 h2).1,
      (hy.1 j h1 h2).2⟩,
    fun i h1 h2 => ⟨(hx.2 i h1 h2).1, (hx.2 i h1 h2).2, (hy.2 i h1 h2).1,
      (hy.2 i h1 h2).2⟩⟩

theorem FluidSystem.stepVelocity_velocity [LinearOrderedField α] [FloorRing α]
    (s : FluidSystem α) (n : Nat) (dt : α) (addedVelocity : VelocityField α) :
    (s.stepVelocity n dt addedVelocity).velocity = s.velocityStepSpec n dt addedVelocity :=
  rfl

theorem FluidSystem.stepVelocity_velocityPrev [LinearOrderedField α] [FloorRing α]
    (s : FluidSystem α) (n : Nat) (dt : α) (addedVelocity : VelocityField α) :
    (s.stepVelocity n dt addedVelocity).velocityPrev = s.firstProjection n dt addedVelocity :=
  rfl

theorem FluidSystem.velocityStepSpec_eq [LinearOrderedField α] [FloorRing α]
    (s : FluidSystem α) (n : Nat) (dt : α) (addedVelocity : VelocityField α) :
    s.velocityStepSpec n dt addedVelocity =
      s.project n (s.advect (s.velocity.add addedVelocity)
        (s.firstProjection n dt addedVelocity) (s.firstProjection n dt addedVelocity) dt
        s.setHorizontalNeumannBoundaries s.setVerticalNeumannBoundaries) :=
  rfl

/-- C4: for every input velocity field of a system with `width ≥ 1` and `height ≥ 1`,
immediately after `project`, and after `stepVelocity`, which ends with `project`, the
x component obeys the horizontal-reflective rule (left and right border cells are the
negated adjacent interior cell, bottom and top border cells the adjacent interior
cell) and the y component the vertical-reflective rule, at every non-corner border
cell. -/
theorem C4_reflective_rules_after_project [LinearOrderedField α] [FloorRing α]
    (s : FluidSystem α) (n : Nat) (v : VelocityField α) (dt : α)
    (addedVelocity : VelocityField α) (hw : 1 ≤ s.width) (hh : 1 ≤ s.height) :
    s.ReflectiveRules (s.project n v) ∧
      s.ReflectiveRules (s.stepVelocity n dt addedVelocity).velocity := by
  refine ⟨s.project_reflective n v hw hh, ?_⟩
  rw [s.stepVelocity_velocity, s.velocityStepSpec_eq]
  exact s.project_reflective n _ hw hh

/-! ### The const methods depend on the geometry only -/

theorem FluidSystem.setBoundaries_congr [One α] [Neg α] [Mul α] {s t : FluidSystem α}
    (h : s.SameGeometry t) : s.setBoundaries = t.setBoundaries := by
  funext grid b
  unfold FluidSystem.setBoundaries
  rw [h.1, h.2.1]

theorem FluidSystem.setContinuityBoundaries_congr [One α] [Neg α] [Mul α]
    {s t : FluidSystem α} (h : s.SameGeometry t) :
    s.setContinuityBoundaries = t.setContinuityBoundaries := by
  funext grid
  unfold FluidSystem.setContinuityBoundaries
  rw [FluidSystem.setBoundaries_congr h]

theorem FluidSystem.setHorizontalNeumannBoundaries_congr [One α] [Neg α] [Mul α]
    {s t : FluidSystem α} (h : s.SameGeometry t) :
    s.setHorizontalNeumannBoundaries = t.setHorizontalNeumannBoundaries := by
  funext grid
  unfold FluidSystem.setHorizontalNeumannBoundaries
  rw [FluidSystem.setBoundaries_congr h]

theorem FluidSystem.setVerticalNeumannBoundaries_congr [One α] [Neg α] [Mul α]
    {s t : FluidSystem α} (h : s.SameGeometry t) :
    s.setVerticalNeumannBoundaries = t.setVerticalNeumannBoundaries := by
  funext grid
  unfold FluidSystem.setVerticalNeumannBoundaries
  rw [FluidSystem.setBoundaries_congr h]

theorem FluidSystem.solvePoisson_congr [Zero α] [Add α] [Mul α] [Div α]
    {s t : FluidSystem α} (h : s.SameGeometry t) : s.solvePoisson = t.solvePoisson := by
  funext x x_0 a c policy n
  unfold FluidSystem.solvePoisson FluidSystem.relaxInto
  rw [h.1, h.2.1, h.2.2]

theorem FluidSystem.diffuseGrid_congr [Zero α] [One α] [NatCast α] [Add α] [Mul α] [Div α]
    {s t : FluidSystem α} (h : s.SameGeometry t) : s.diffuseGrid = t.diffuseGrid := by
  funext n x x_0 rate dt policy
  unfold FluidSystem.diffuseGrid
  rw [FluidSystem.solvePoisson_congr h, h.1, h.2.1]

theorem FluidSystem.diffuse_congr [Field α] {s t : FluidSystem α}
    (h : s.SameGeometry t) : s.diffuse = t.diffuse := by
  funext n out input rate dt setter0 setter1
  unfold FluidSystem.diffuse
  rw [FluidSystem.diffuseGrid_congr h]

theorem FluidSystem.advectGrid_congr [LinearOrderedField α] [FloorRing α]
    {s t : FluidSystem α} (h : s.SameGeometry t) : s.advectGrid = t.advectGrid := by
  funext d d0 field dt policy
  unfold FluidSystem.advectGrid
  rw [h.1, h.2.1]

theorem FluidSystem.advect_congr [LinearOrderedField α] [FloorRing α]
    {s t : FluidSystem α} (h : s.SameGeometry t) : s.advect = t.advect := by
  funext out input field dt setter0 setter1
  unfold FluidSystem.advect
  rw [FluidSystem.advectGrid_congr h]

theorem FluidSystem.div_congr [Field α] {s t : FluidSystem α}
    (h : s.SameGeometry t) : s.div = t.div := by
  funext out input
  unfold FluidSystem.div
  rw [h.1, h.2.1]

theorem FluidSystem.grad_congr [Field α] {s t : FluidSystem α}
    (h : s.SameGeometry t) : s.grad = t.grad := by
  funext out input
  unfold FluidSystem.grad
  rw [h.1, h.2.1]

theorem FluidSystem.project_congr [Field α] {s t : FluidSystem α}
    (h : s.SameGeometry t) : s.project = t.project := by
  funext n v
  unfold FluidSystem.project
  rw [FluidSystem.div_congr h, FluidSystem.grad_congr h, FluidSystem.solvePoisson_congr h,
    FluidSystem.setContinuityBoundaries_congr h,
    FluidSystem.setHorizontalNeumannBoundaries_congr h,
    FluidSystem.setVerticalNeumannBoundaries_congr h, h.2.2]

theorem FluidSystem.stepVelocity_sameGeometry [Zero α] [One α] [NatCast α] [Neg α] [Add α]
    [Sub α] [Mul α] [Div α] [Truncation α]
    (s : FluidSystem α) (n : Nat) (dt : α) (addedVelocity : VelocityField α) :
    (s.stepVelocity n dt addedVelocity).SameGeometry s :=
  ⟨rfl, rfl, rfl⟩

theorem FluidSystem.clear_sameGeometry [Zero α] (s : FluidSystem α) :
    s.clear.SameGeometry s :=
  ⟨rfl, rfl, rfl⟩

theorem FluidSystem.stepDensity_density [LinearOrderedField α] [FloorRing α]
    (s : FluidSystem α) (n : Nat) (dt : α) (addedDensity : Grid α) :
    (s.stepDensity n dt addedDensity).density =
      s.densityStepSpec n dt addedDensity s.velocity :=
  rfl

theorem FluidSystem.densityStepSpec_congr [LinearOrderedField α] [FloorRing α]
    {s t : FluidSystem α} (h : s.SameGeometry t) (hd : s.density = t.density)
    (hp : s.densityPrev = t.densityPrev) (hc : s.diffusionConstant = t.diffusionConstant) :
    s.densityStepSpec = t.densityStepSpec := by
  funext n dt addedDensity through
  unfold FluidSystem.densityStepSpec
  rw [FluidSystem.diffuseGrid_congr h, FluidSystem.advectGrid_congr h,
    FluidSystem.setContinuityBoundaries_congr h, hd, hp, hc]

theorem FluidSystem.step_density [LinearOrderedField α] [FloorRing α]
    (s : FluidSystem α) (n : Nat) (addedDensity : Grid α) (addedVelocity : VelocityField α)
    (dt : α) :
    (s.step n addedDensity addedVelocity dt).density =
      s.densityStepSpec n dt addedDensity (s.velocityStepSpec n dt addedVelocity) := by
  unfold FluidSystem.step
  simp only []
  rw [FluidSystem.stepDensity_density,
    FluidSystem.densityStepSpec_congr (s.stepVelocity_sameGeometry n dt addedVelocity)
      rfl rfl rfl]
  rfl

/-- C6: `step` is `stepDensity` after `stepVelocity`; the velocity step computes
`project(advect(q, q))` with `q = project(diffuse(velocity + addedVelocity,
viscosity))`, and the density step computes `advect(diffuse(density + addedDensity,
diffusionConstant))` through the velocity the velocity step of the same tick
produced. -/
theorem C6_step_is_fixed_composition [LinearOrderedField α] [FloorRing α]
    (s : FluidSystem α) (n : Nat) (addedDensity : Grid α) (addedVelocity : VelocityField α)
    (dt : α) :
    s.step n addedDensity addedVelocity dt =
        (s.stepVelocity n dt addedVelocity).stepDensity n dt addedDensity ∧
      (s.stepVelocity n dt addedVelocity).velocity = s.velocityStepSpec n dt addedVelocity ∧
      (s.step n addedDensity addedVelocity dt).velocity =
        s.velocityStepSpec n dt addedVelocity ∧
      (s.step n addedDensity addedVelocity dt).density =
        s.densityStepSpec n dt addedDensity (s.velocityStepSpec n dt addedVelocity) :=
  ⟨rfl, s.stepVelocity_velocity n dt addedVelocity, s.stepVelocity_velocity n dt addedVelocity,
    s.step_density n addedDensity addedVelocity dt⟩

end Projection

/-! ## The zero state -/

section ZeroState

variable {α : Type}

theorem Grid.isZero_zero [Zero α] (d : Nat × Nat × Nat) : (Grid.zero d : Grid α).IsZero :=
  fun _ _ => rfl

theorem Grid.isZero_add [AddZeroClass α] {g k : Grid α} (hg : g.IsZero) (hk : k.IsZero) :
    (g.add k).IsZero := by
  intro p q
  show g.cell p q + k.cell p q = 0
  rw [hg p q, hk p q, add_zero]

theorem Grid.isZero_sub [AddGroup α] {g k : Grid α} (hg : g.IsZero) (hk : k.IsZero) :
    (g.sub k).IsZero := by
  intro p q
  show g.cell p q - k.cell p q = 0
  rw [hg p q, hk p q, sub_zero]

theorem Grid.isZero_scale [MulZeroClass α] (c : α) {g : Grid α} (hg : g.IsZero) :
    (Grid.scale c g).IsZero := by
  intro p q
  show c * g.cell p q = 0
  rw [hg p q, mul_zero]

theorem FluidSystem.isZero_setBoundaries [Ring α] (s : FluidSystem α) (b : Int)
    {grid : Grid α} (hg : grid.IsZero) : (s.setBoundaries grid b).IsZero := by
  unfold FluidSystem.setBoundaries
  simp only []
  apply forLoop_induct (fun g : Grid α => g.IsZero)
  · apply forLoop_induct (fun g : Grid α => g.IsZero)
    · exact hg
    · intro k g _ _ h p q
      simp only [Grid.set_cell, Grid.get_eq, h _ _, mul_zero, ite_self]
  · intro k g _ _ h p q
    simp only [Grid.set_cell, Grid.get_eq, h _ _, mul_zero, ite_self]

theorem FluidSystem.isZero_fill [Ring α] (s : FluidSystem α) (p : BoundaryPolicy)
    {grid : Grid α} (hg : grid.IsZero) : (p.fill s grid).IsZero := by
  rw [s.fill_eq_setBoundaries]
  exact s.isZero_setBoundaries _ hg

theorem FluidSystem.isZero_jacobiSweepSpec [Field α] (s : FluidSystem α) (a c : α)
    {x_0 x : Grid α} (h0 : x_0.IsZero) (hx : x.IsZero) :
    (s.jacobiSweepSpec x_0 a c x).IsZero := by
  intro p q
  simp only [FluidSystem.jacobiSweepSpec, h0 _ _, hx _ _, add_zero, mul_zero, zero_div,
    ite_self]

theorem FluidSystem.isZero_solvePoisson [Field α] (s : FluidSystem α) (x : Grid α)
    (a c : α) (policy : Grid α → Grid α) (n : Nat) {x_0 : Grid α} (h0 : x_0.IsZero)
    (hp : ∀ g : Grid α, g.IsZero → (policy g).IsZero) :
    (s.solvePoisson x x_0 a c policy n).IsZero := by
  rw [s.solvePoisson_eq_iterate]
  induction n with
  | zero => exact h0
  | succ m ih =>
    rw [Function.iterate_succ_apply']
    exact hp _ (s.isZero_jacobiSweepSpec a c h0 ih)

theorem FluidSystem.isZero_diffuseGrid [Field α] (s : FluidSystem α) (n : Nat) (x : Grid α)
    (rate dt : α) (policy : Grid α → Grid α) {x_0 : Grid α} (h0 : x_0.IsZero)
    (hp : ∀ g : Grid α, g.IsZero → (policy g).IsZero) :
    (s.diffuseGrid n x x_0 rate dt policy).IsZero :=
  s.isZero_solvePoisson x _ _ policy n h0 hp

theorem FluidSystem.isZero_div [Field α] (s : FluidSystem α) {out : Grid α}
    {v : VelocityField α} (ho : out.IsZero) (hv : v.IsZero) : (s.div out v).IsZero := by
  intro p q
  rw [s.div_cell]
  simp only [hv.1 _ _, hv.2 _ _, ho _ _, sub_zero, mul_zero, add_zero, ite_self]

theorem FluidSystem.isZero_negDivergence [Field α] (s : FluidSystem α)
    {v : VelocityField α} (hv : v.IsZero) : (s.negDivergence v).IsZero :=
  s.isZero_setBoundaries 0 (Grid.isZero_scale _ (s.isZero_div (Grid.isZero_zero _) hv))

theorem FluidSystem.isZero_pressure [Field α] (s : FluidSystem α) (n : Nat)
    {v : VelocityField α} (hv : v.IsZero) : (s.pressure n v).IsZero :=
  s.isZero_solvePoisson _ _ _ _ n (s.isZero_negDivergence hv)
    (fun _ hg => s.isZero_setBoundaries 0 hg)

theorem FluidSystem.isZero_grad [Field α] (s : FluidSystem α) {out : VelocityField α}
    {input : Grid α} (ho : out.IsZero) (hi : input.IsZero) : (s.grad out input).IsZero := by
  constructor
  · intro p q
    rw [s.grad_c0_cell]
    simp only [hi _ _, ho.1 _ _, sub_zero, mul_zero, ite_self]
  · intro p q
    rw [s.grad_c1_cell]
    simp only [hi _ _, ho.2 _ _, sub_zero, mul_zero, ite_self]

theorem FluidSystem.isZero_project [Field α] (s : FluidSystem α) (n : Nat)
    {v : VelocityField α} (hv : v.IsZero) : (s.project n v).IsZero := by
  rw [s.project_eq]
  have hg : (s.grad (VelocityField.zero s.fullDimensions) (s.pressure n v)).IsZero :=
    s.isZero_grad ⟨Grid.isZero_zero _, Grid.isZero_zero _⟩ (s.isZero_pressure n hv)
  exact ⟨s.isZero_fill _ (Grid.isZero_sub hv.1 hg.1), s.isZero_fill _ (Grid.isZero_sub hv.2 hg.2)⟩

theorem FluidSystem.isZero_diffuse [Field α] (s : FluidSystem α) (n : Nat)
    (out : VelocityField α) (rate dt : α) {input : VelocityField α} (hi : input.IsZero) :
    (s.diffuse n out input rate dt s.setHorizontalNeumannBoundaries
      s.setVerticalNeumannBoundaries).IsZero :=
  ⟨s.isZero_diffuseGrid n out.c0 rate dt _ hi.1 (fun _ hg => s.isZero_setBoundaries 1 hg),
    s.isZero_diffuseGrid n out.c1 rate dt _ hi.2 (fun _ hg => s.isZero_setBoundaries 2 hg)⟩

theorem FluidSystem.isZero_advectGrid [LinearOrderedField α] [FloorRing α]
    (s : FluidSystem α) (field : VelocityField α) (dt : α) (policy : Grid α → Grid α)
    {d d0 : Grid α} (hd : d.IsZero) (h0 : d0.IsZero)
    (hp : ∀ g : Grid α, g.IsZero → (policy g).IsZero) :
    (s.advectGrid d d0 field dt policy).IsZero := by
  unfold FluidSystem.advectGrid
  simp only []
  apply hp
  apply forLoop_induct (fun g : Grid α => g.IsZero) _ _ _ _ hd
  intro i g _ _ hg
  apply forLoop_induct (fun g : Grid α => g.IsZero) _ _ _ _ hg
  intro j g _ _ hg p q
  simp only [Grid.set_cell, Grid.get_eq, h0 _ _, hg _ _, mul_zero, add_zero, ite_self]

theorem FluidSystem.isZero_advect [LinearOrderedField α] [FloorRing α]
    (s : FluidSystem α) (field : VelocityField α) (dt : α)
    {out input : VelocityField α} (ho : out.IsZero) (hi : input.IsZero) :
    (s.advect out input field dt s.setHorizontalNeumannBoundaries
      s.setVerticalNeumannBoundaries).IsZero :=
  ⟨s.isZero_advectGrid field dt _ ho.1 hi.1 (fun _ hg => s.isZero_setBoundaries 1 hg),
    s.isZero_advectGrid field dt _ ho.2 hi.2 (fun _ hg => s.isZero_setBoundaries 2 hg)⟩

theorem VelocityField.isZero_addField [AddZeroClass α] {f k : VelocityField α} (hf : f.IsZero)
    (hk : k.IsZero) : (f.add k).IsZero :=
  ⟨Grid.isZero_add hf.1 hk.1, Grid.isZero_add hf.2 hk.2⟩

theorem FluidSystem.isZero_firstProjection [LinearOrderedField α] [FloorRing α]
    (s : FluidSystem α) (n : Nat) (dt : α) {addedVelocity : VelocityField α}
    (hv : s.velocity.IsZero) (ha : addedVelocity.IsZero) :
    (s.firstProjection n dt addedVelocity).IsZero :=
  s.isZero_project n (s.isZero_diffuse n _ _ _ (VelocityField.isZero_addField hv ha))

theorem FluidSystem.isZero_velocityStepSpec [LinearOrderedField α] [FloorRing α]
    (s : FluidSystem α) (n : Nat) (dt : α) {addedVelocity : VelocityField α}
    (hv : s.velocity.IsZero) (ha : addedVelocity.IsZero) :
    (s.velocityStepSpec n dt addedVelocity).IsZero := by
  rw [s.velocityStepSpec_eq]
  exact s.isZero_project n (s.isZero_advect _ dt (VelocityField.isZero_addField hv ha)
    (s.isZero_firstProjection n dt hv ha))

/-- C4 at a concrete input: the `4 × 4` system, 20 sweeps, the uniform rightward
field. -/
theorem C4_reflective_rules_after_project_witness :
    (1 ≤ sys44.width ∧ 1 ≤ sys44.height) ∧
      (sys44.ReflectiveRules (sys44.project 20 uniformRight) ∧
        sys44.ReflectiveRules (sys44.stepVelocity 20 1 uniformRight).velocity) :=
  ⟨⟨by decide, by decide⟩,
    C4_reflective_rules_after_project sys44 20 uniformRight 1 uniformRight
      (by decide) (by decide)⟩

end ZeroState

/-! ## Zero rate, zero velocity -/

section Still

variable {α : Type}

/-- The boundary setters leave the interior alone. -/
theorem FluidSystem.setBoundaries_interior [One α] [Neg α] [Mul α] (s : FluidSystem α)
    (grid : Grid α) (b : Int) (i j : Nat) (h1 : 1 ≤ i) (h2 : i ≤ s.width) (h3 : 1 ≤ j)
    (h4 : j ≤ s.height) : (s.setBoundaries grid b).cell i j = grid.cell i j :=
  s.setBoundaries_cell_unwritten grid b i j (by omega) (by omega)

/-- Relaxation with `a = 0` and `c = 1` returns the interior of the source. -/
theorem FluidSystem.solvePoisson_zero_rate [Field α] (s : FluidSystem α) (x x_0 : Grid α)
    (policy : Grid α → Grid α) (n : Nat)
    (hp : ∀ (g : Grid α) (i j : Nat), 1 ≤ i → i ≤ s.width → 1 ≤ j → j ≤ s.height →
      (policy g).cell i j = g.cell i j)
    (i j : Nat) (h1 : 1 ≤ i) (h2 : i ≤ s.width) (h3 : 1 ≤ j) (h4 : j ≤ s.height) :
    (s.solvePoisson x x_0 0 1 policy n).cell i j = x_0.cell i j := by
  rw [s.solvePoisson_eq_iterate]
  cases n with
  | zero => rfl
  | succ m =>
    rw [Function.iterate_succ_apply']
    show (policy (s.jacobiSweepSpec x_0 0 1 _)).cell i j = x_0.cell i j
    rw [hp _ i j h1 h2 h3 h4]
    have h : 1 ≤ i ∧ i ≤ s.width ∧ 1 ≤ j ∧ j ≤ s.height := ⟨h1, h2, h3, h4⟩
    simp only [FluidSystem.jacobiSweepSpec, if_pos h, zero_mul, add_zero, div_one]

theorem FluidSystem.diffuseGrid_zero_rate [Field α] (s : FluidSystem α) (n : Nat)
    (x x_0 : Grid α) (dt : α) (policy : Grid α → Grid α)
    (hp : ∀ (g : Grid α) (i j : Nat), 1 ≤ i → i ≤ s.width → 1 ≤ j → j ≤ s.height →
      (policy g).cell i j = g.cell i j)
    (i j : Nat) (h1 : 1 ≤ i) (h2 : i ≤ s.width) (h3 : 1 ≤ j) (h4 : j ≤ s.height) :
    (s.diffuseGrid n x x_0 0 dt policy).cell i j = x_0.cell i j := by
  unfold FluidSystem.diffuseGrid
  simp only [mul_zero, zero_mul, add_zero]
  exact s.solvePoisson_zero_rate x x_0 policy n hp i j h1 h2 h3 h4

theorem Truncation.less_eq_decide [LinearOrderedField α] [FloorRing α] (x y : α) :
    Truncation.less x y = decide (x < y) := rfl

theorem Truncation.toInt_eq_floor [LinearOrderedField α] [FloorRing α] (x : α) :
    Truncation.toInt x = Int.floor x := rfl

theorem FluidSystem.clampPos_natCast [LinearOrderedField α] [FloorRing α] (extent i : Nat)
    (h1 : 1 ≤ i) (h2 : i ≤ extent) : clampPos extent (i : α) = (i : α) := by
  unfold FluidSystem.clampPos
  simp only [Truncation.less_eq_decide, decide_eq_true_eq]
  have c1 : (1 : α) ≤ (i : α) := by exact_mod_cast h1
  have c2 : (i : α) ≤ (extent : α) := by exact_mod_cast h2
  have e1 : ¬ ((i : α) < 1 / 2) := by
    intro h
    linarith
  have e2 : ¬ ((extent : α) + 1 / 2 < (i : α)) := by
    intro h
    linarith
  rw [if_neg e1, if_neg e2]

/-- Advection through a zero velocity field returns the interior of the previous
grid. -/
theorem FluidSystem.advectGrid_zero_field [LinearOrderedField α] [FloorRing α]
    (s : FluidSystem α) (d d0 : Grid α) (field : VelocityField α) (dt : α)
    (policy : Grid α → Grid α) (hf : field.IsZero)
    (hp : ∀ (g : Grid α) (i j : Nat), 1 ≤ i → i ≤ s.width → 1 ≤ j → j ≤ s.height →
      (policy g).cell i j = g.cell i j)
    (i j : Nat) (h1 : 1 ≤ i) (h2 : i ≤ s.width) (h3 : 1 ≤ j) (h4 : j ≤ s.height) :
    (s.advectGrid d d0 field dt policy).cell i j = d0.cell i j := by
  unfold FluidSystem.advectGrid
  simp only []
  rw [hp _ i j h1 h2 h3 h4]
  simp only [Grid.get_eq, hf.1 _ _, hf.2 _ _, mul_zero, sub_zero]
  rw [forLoop_setRect_cell]
  have h : (1 ≤ i ∧ i < 1 + s.width) ∧ 1 ≤ j ∧ j < 1 + s.height := by omega
  rw [if_pos h, FluidSystem.clampPos_natCast s.width i h1 h2,
    FluidSystem.clampPos_natCast s.height j h3 h4]
  simp [Truncation.toInt_eq_floor]

/-- With diffusion constant `0` and a velocity that stays zero, one `step` adds the
source to the interior of the density and moves nothing. -/
theorem FluidSystem.step_density_still [LinearOrderedField α] [FloorRing α]
    (s : FluidSystem α) (n : Nat) (dt : α) (addedDensity : Grid α)
    {addedVelocity : VelocityField α} (hc : s.diffusionConstant = 0)
    (hv : s.velocity.IsZero) (hav : addedVelocity.IsZero)
    (i j : Nat) (h1 : 1 ≤ i) (h2 : i ≤ s.width) (h3 : 1 ≤ j) (h4 : j ≤ s.height) :
    (s.step n addedDensity addedVelocity dt).density.cell i j =
      s.density.cell i j + addedDensity.cell i j := by
  rw [s.step_density]
  unfold FluidSystem.densityStepSpec
  simp only []
  rw [s.advectGrid_zero_field _ _ _ dt s.setContinuityBoundaries
    (s.isZero_velocityStepSpec n dt hv hav)
    (fun g i j a b c d => s.setBoundaries_interior g 0 i j a b c d) i j h1 h2 h3 h4, hc,
    s.diffuseGrid_zero_rate n _ _ dt s.setContinuityBoundaries
    (fun g i j a b c d => s.setBoundaries_interior g 0 i j a b c d) i j h1 h2 h3 h4]
  rfl

/-- C8: in the `4 × 4` system with diffusion constant `0`, viscosity `0` and `dt = 1`,
from the cleared state, with `addedDensity` equal to `1` at `(2, 2)` and zero
elsewhere and all-zero `addedVelocity`, after one `step` (whatever the number of
sweeps) the density at `(2, 2)` is `1` and every other interior cell of the density
grid is `0`. -/
theorem C8_density_spike_stays (n : Nat) :
    (sys44.clear.step n spikeDensity zeroField 1).density.cell 2 2 = 1 ∧
      ∀ i j, 1 ≤ i → i ≤ 4 → 1 ≤ j → j ≤ 4 → ¬ (i = 2 ∧ j = 2) →
        (sys44.clear.step n spikeDensity zeroField 1).density.cell i j = 0 := by
  have hv : sys44.clear.velocity.IsZero := ⟨fun _ _ => rfl, fun _ _ => rfl⟩
  have hav : zeroField.IsZero := ⟨fun _ _ => rfl, fun _ _ => rfl⟩
  have key := fun i j => sys44.clear.step_density_still n 1 spikeDensity rfl hv hav i j
  constructor
  · rw [key 2 2 (by decide) (by decide) (by decide) (by decide)]
    show (0 : ℚ) + (if 2 = 2 ∧ 2 = 2 then 1 else 0) = 1
    norm_num
  · intro i j h1 h2 h3 h4 hne
    rw [key i j h1 h2 h3 h4]
    show (0 : ℚ) + (if i = 2 ∧ j = 2 then 1 else 0) = 0
    rw [if_neg hne, add_zero]

end Still

/-! ## What projection does to the divergence -/

section Residual

variable {α : Type}

@[simp] theorem Grid.sub_cell [Sub α] (g k : Grid α) (p q : Nat) :
    (g.sub k).cell p q = g.cell p q - k.cell p q := rfl

@[simp] theorem Grid.scale_cell [Mul α] (c : α) (g : Grid α) (p q : Nat) :
    (Grid.scale c g).cell p q = c * g.cell p q := rfl

@[simp] theorem Grid.zero_cell [Zero α] (d : Nat × Nat × Nat) (p q : Nat) :
    (Grid.zero d : Grid α).cell p q = 0 := rfl

/-- The interior of the x component after `project`. -/
theorem FluidSystem.project_c0_interior [Field α] (s : FluidSystem α) (n : Nat)
    (v : VelocityField α) (i j : Nat) (h1 : 1 ≤ i) (h2 : i ≤ s.width) (h3 : 1 ≤ j)
    (h4 : j ≤ s.height) :
    (s.project n v).c0.cell i j =
      v.c0.cell i j -
        1 / 2 * ((s.pressure n v).cell (i + 1) j - (s.pressure n v).cell (i - 1) j) := by
  rw [s.project_eq]
  simp only []
  rw [s.fill_cell_unwritten _ _ i j (by omega) (by omega), Grid.sub_cell, s.grad_c0_cell,
    if_pos ⟨h1, h2, h3, h4⟩]

/-- The interior of the y component after `project`. -/
theorem FluidSystem.project_c1_interior [Field α] (s : FluidSystem α) (n : Nat)
    (v : VelocityField α) (i j : Nat) (h1 : 1 ≤ i) (h2 : i ≤ s.width) (h3 : 1 ≤ j)
    (h4 : j ≤ s.height) :
    (s.project n v).c1.cell i j =
      v.c1.cell i j -
        1 / 2 * ((s.pressure n v).cell i (j + 1) - (s.pressure n v).cell i (j - 1)) := by
  rw [s.project_eq]
  simp only []
  rw [s.fill_cell_unwritten _ _ i j (by omega) (by omega), Grid.sub_cell, s.grad_c1_cell,
    if_pos ⟨h1, h2, h3, h4⟩]

/-- The interior of the right-hand side of the pressure equation. -/
theorem FluidSystem.negDivergence_interior [Field α] (s : FluidSystem α)
    (v : VelocityField α) (i j : Nat) (h1 : 1 ≤ i) (h2 : i ≤ s.width) (h3 : 1 ≤ j)
    (h4 : j ≤ s.height) :
    (s.negDivergence v).cell i j = -FluidSystem.divergenceAt v i j := by
  unfold FluidSystem.negDivergence FluidSystem.setContinuityBoundaries
  rw [s.setBoundaries_interior _ 0 i j h1 h2 h3 h4, Grid.scale_cell, s.div_cell,
    if_pos ⟨h1, h2, h3, h4⟩, neg_one_mul]
  rfl

/-- A field whose divergence vanishes at every interior cell has a zero right-hand
side, hence zero pressure. -/
theorem FluidSystem.isZero_negDivergence_of_divFree [Field α] (s : FluidSystem α)
    (v : VelocityField α)
    (hv : ∀ i j, 1 ≤ i → i ≤ s.width → 1 ≤ j → j ≤ s.height →
      FluidSystem.divergenceAt v i j = 0) :
    (s.negDivergence v).IsZero := by
  unfold FluidSystem.negDivergence FluidSystem.setContinuityBoundaries
  apply s.isZero_setBoundaries
  intro p q
  rw [Grid.scale_cell, s.div_cell]
  by_cases h : 1 ≤ p ∧ p ≤ s.width ∧ 1 ≤ q ∧ q ≤ s.height
  · rw [if_pos h]
    have := hv p q h.1 h.2.1 h.2.2.1 h.2.2.2
    unfold FluidSystem.divergenceAt at this
    rw [this, mul_zero]
  · rw [if_neg h, Grid.zero_cell, mul_zero]

theorem FluidSystem.isZero_pressure_of_divFree [Field α] (s : FluidSystem α) (n : Nat)
    (v : VelocityField α)
    (hv : ∀ i j, 1 ≤ i → i ≤ s.width → 1 ≤ j → j ≤ s.height →
      FluidSystem.divergenceAt v i j = 0) :
    (s.pressure n v).IsZero :=
  s.isZero_solvePoisson _ _ _ _ n (s.isZero_negDivergence_of_divFree v hv)
    (fun _ hg => s.isZero_setBoundaries 0 hg)

/-- Projecting a field that is uniform in x (borders included) and zero in y leaves
divergence `m` in the first interior column, whatever the number of sweeps. -/
theorem FluidSystem.divergence_project_uniform [Field α] (s : FluidSystem α) (n : Nat)
    (v : VelocityField α) (m : α) (h0 : ∀ p q, v.c0.cell p q = m) (h1 : v.c1.IsZero)
    (hw : 2 ≤ s.width) (j : Nat) (hj1 : 1 ≤ j) (hj2 : j ≤ s.height) :
    FluidSystem.divergenceAt (s.project n v) 1 j = 1 / 2 * (m + m) := by
  have hp : (s.pressure n v).IsZero := by
    apply s.isZero_pressure_of_divFree
    intro i j _ _ _ _
    simp [FluidSystem.divergenceAt, h0 _ _, h1 _ _]
  have hz : (s.project n v).c1.IsZero := by
    rw [s.project_eq]
    apply s.isZero_fill
    apply Grid.isZero_sub h1
    exact (s.isZero_grad ⟨Grid.isZero_zero _, Grid.isZero_zero _⟩ hp).2
  have e21 := s.project_c0_interior n v 2 j (by omega) (by omega) hj1 hj2
  have e11 := s.project_c0_interior n v 1 j (by omega) (by omega) hj1 hj2
  have r := s.project_reflective n v (by omega) (by omega)
  have r1 := r.1 j hj1 hj2
  simp only [hp _ _, sub_zero, mul_zero, h0 _ _] at e21 e11
  unfold FluidSystem.divergenceAt
  show 1 / 2 * ((s.project n v).c0.cell 2 j - (s.project n v).c0.cell 0 j) +
    1 / 2 * ((s.project n v).c1.cell 1 (j + 1) - (s.project n v).c1.cell 1 (j - 1)) = _
  rw [r1.1, e21, e11, hz _ _, hz _ _]
  ring

/-- The x component after `project` at the right neighbour of an interior cell: the
corrected value, or its reflection at the right wall. -/
theorem FluidSystem.project_c0_right [Field α] (s : FluidSystem α) (n : Nat)
    (v : VelocityField α) (i j : Nat) (h1 : 1 ≤ i) (h2 : i ≤ s.width) (h3 : 1 ≤ j)
    (h4 : j ≤ s.height) :
    (s.project n v).c0.cell (i + 1) j =
      if i = s.width then -s.correctedX n v s.width j else s.correctedX n v (i + 1) j := by
  by_cases h : i = s.width
  · rw [if_pos h, h, ((s.project_reflective n v (by omega) (by omega)).1 j h3 h4).2.1,
      s.project_c0_interior n v s.width j (by omega) (le_refl _) h3 h4]
    rfl
  · rw [if_neg h, s.project_c0_interior n v (i + 1) j (by omega) (by omega) h3 h4]
    rfl

/-- The x component after `project` at the left neighbour of an interior cell. -/
theorem FluidSystem.project_c0_left [Field α] (s : FluidSystem α) (n : Nat)
    (v : VelocityField α) (i j : Nat) (h1 : 1 ≤ i) (h2 : i ≤ s.width) (h3 : 1 ≤ j)
    (h4 : j ≤ s.height) :
    (s.project n v).c0.cell (i - 1) j =
      if i = 1 then -s.correctedX n v 1 j else s.correctedX n v (i - 1) j := by
  by_cases h : i = 1
  · rw [if_pos h, h, ((s.project_reflective n v (by omega) (by omega)).1 j h3 h4).1,
      s.project_c0_interior n v 1 j (le_refl _) (by omega) h3 h4]
    rfl
  · rw [if_neg h, s.project_c0_interior n v (i - 1) j (by omega) (by omega) h3 h4]
    rfl

/-- The y component after `project` at the upper neighbour of an interior cell. -/
theorem FluidSystem.project_c1_up [Field α] (s : FluidSystem α) (n : Nat)
    (v : VelocityField α) (i j : Nat) (h1 : 1 ≤ i) (h2 : i ≤ s.width) (h3 : 1 ≤ j)
    (h4 : j ≤ s.height) :
    (s.project n v).c1.cell i (j + 1) =
      if j = s.height then -s.correctedY n v i s.height else s.correctedY n v i (j + 1) := by
  by_cases h : j = s.height
  · rw [if_pos h, h, ((s.project_reflective n v (by omega) (by omega)).2 i h1 h2).2.2.2,
      s.project_c1_interior n v i s.height h1 h2 (by omega) (le_refl _)]
    rfl
  · rw [if_neg h, s.project_c1_interior n v i (j + 1) h1 h2 (by omega) (by omega)]
    rfl

/-- The y component after `project` at the lower neighbour of an interior cell. -/
theorem FluidSystem.project_c1_down [Field α] (s : FluidSystem α) (n : Nat)
    (v : VelocityField α) (i j : Nat) (h1 : 1 ≤ i) (h2 : i ≤ s.width) (h3 : 1 ≤ j)
    (h4 : j ≤ s.height) :
    (s.project n v).c1.cell i (j - 1) =
      if j = 1 then -s.correctedY n v i 1 else s.correctedY n v i (j - 1) := by
  by_cases h : j = 1
  · rw [if_pos h, h, ((s.project_reflective n v (by omega) (by omega)).2 i h1 h2).2.2.1,
      s.project_c1_interior n v i 1 h1 h2 (le_refl _) (by omega)]
    rfl
  · rw [if_neg h, s.project_c1_interior n v i (j - 1) h1 h2 (by omega) (by omega)]
    rfl

/-- The divergence after `project` at any interior cell. -/
theorem FluidSystem.divergence_project_interior [Field α] (s : FluidSystem α) (n : Nat)
    (v : VelocityField α) (i j : Nat) (h1 : 1 ≤ i) (h2 : i ≤ s.width) (h3 : 1 ≤ j)
    (h4 : j ≤ s.height) :
    FluidSystem.divergenceAt (s.project n v) i j =
      1 / 2 * ((if i = s.width then -s.correctedX n v s.width j
            else s.correctedX n v (i + 1) j) -
          (if i = 1 then -s.correctedX n v 1 j else s.correctedX n v (i - 1) j)) +
        1 / 2 * ((if j = s.height then -s.correctedY n v i s.height
            else s.correctedY n v i (j + 1)) -
          (if j = 1 then -s.correctedY n v i 1 else s.correctedY n v i (j - 1))) := by
  unfold FluidSystem.divergenceAt
  rw [s.project_c0_right n v i j h1 h2 h3 h4, s.project_c0_left n v i j h1 h2 h3 h4,
    s.project_c1_up n v i j h1 h2 h3 h4, s.project_c1_down n v i j h1 h2 h3 h4]

/-- The divergence after `project` at a cell whose four neighbours are interior. -/
theorem FluidSystem.divergence_project_inner [Field α] (s : FluidSystem α) (n : Nat)
    (v : VelocityField α) (i j : Nat) (h1 : 2 ≤ i) (h2 : i + 1 ≤ s.width) (h3 : 2 ≤ j)
    (h4 : j + 1 ≤ s.height) :
    FluidSystem.divergenceAt (s.project n v) i j =
      FluidSystem.divergenceAt v i j - s.pressureResidual n v i j := by
  unfold FluidSystem.divergenceAt FluidSystem.pressureResidual
  rw [s.project_c0_interior n v (i + 1) j (by omega) (by omega) (by omega) (by omega),
    s.project_c0_interior n v (i - 1) j (by omega) (by omega) (by omega) (by omega),
    s.project_c1_interior n v i (j + 1) (by omega) (by omega) (by omega) (by omega),
    s.project_c1_interior n v i (j - 1) (by omega) (by omega) (by omega) (by omega)]
  have e1 : i + 1 + 1 = i + 2 := rfl
  have e2 : i + 1 - 1 = i := by omega
  have e3 : i - 1 + 1 = i := by omega
  have e4 : i - 1 - 1 = i - 2 := by omega
  have e5 : j + 1 + 1 = j + 2 := rfl
  have e6 : j + 1 - 1 = j := by omega
  have e7 : j - 1 + 1 = j := by omega
  have e8 : j - 1 - 1 = j - 2 := by omega
  have e9 : (1 / 4 : α) = 1 / 2 * (1 / 2) := by
    rw [one_div, one_div, ← mul_inv]
    norm_num
  rw [e1, e2, e3, e4, e5, e6, e7, e8, e9]
  ring

end Residual

/-! ## Uniform flow between walls on the `4 × 4` system -/

section Walls

variable {α : Type}

/-- The continuity fill extends a column pattern of the interior to the border
strips. -/
theorem FluidSystem.columnPattern_fill [Field α] (s : FluidSystem α) (hw : s.width = 4)
    (hh : s.height = 4) (a b : α) (pre : Grid α)
    (hpre : ∀ p q, 1 ≤ p → p ≤ 4 → 1 ≤ q → q ≤ 4 → pre.cell p q = colval a b p) :
    ColumnPattern a b (s.setBoundaries pre 0) := by
  intro p q hnc
  rw [s.setBoundaries_cell pre 0 (by omega) (by omega)]
  simp only [hw, hh]
  unfold NonCorner at hnc
  by_cases c1 : q = 0 ∧ 1 ≤ p ∧ p ≤ 4
  · rw [if_pos c1, hpre p 1 (by omega) (by omega) (by omega) (by omega)]
    simp
  · rw [if_neg c1]
    by_cases c2 : q = 4 + 1 ∧ 1 ≤ p ∧ p ≤ 4
    · rw [if_pos c2, hpre p 4 (by omega) (by omega) (by omega) (by omega)]
      simp
    · rw [if_neg c2]
      by_cases c3 : p = 0 ∧ 1 ≤ q ∧ q ≤ 4
      · rw [if_pos c3, hpre 1 q (by omega) (by omega) (by omega) (by omega), c3.1]
        simp [colval]
      · rw [if_neg c3]
        by_cases c4 : p = 4 + 1 ∧ 1 ≤ q ∧ q ≤ 4
        · rw [if_pos c4, hpre 4 q (by omega) (by omega) (by omega) (by omega), c4.1]
          simp [colval]
        · rw [if_neg c4]
          exact hpre p q (by omega) (by omega) (by omega) (by omega)

/-- One Jacobi sweep of the pressure solve maps a column pattern to a column
pattern. -/
theorem FluidSystem.columnPattern_sweep [Field α] (s : FluidSystem α) (hw : s.width = 4)
    (hh : s.height = 4) (m a b : α) (d x : Grid α) (hd : ColumnPattern (-m) 0 d)
    (hx : ColumnPattern a b x) (p q : Nat) (h1 : 1 ≤ p) (h2 : p ≤ 4) (h3 : 1 ≤ q)
    (h4 : q ≤ 4) :
    (s.jacobiSweepSpec d 1 4 x).cell p q =
      colval ((-m + 3 * a + b) / 4) ((a + b) / 4) p := by
  have hin : 1 ≤ p ∧ p ≤ s.width ∧ 1 ≤ q ∧ q ≤ s.height := by omega
  simp only [FluidSystem.jacobiSweepSpec, if_pos hin]
  rw [hd p q (Or.inl (by omega)), hx (p - 1) q (Or.inl (by omega)),
    hx (p + 1) q (Or.inl (by omega)), hx p (q - 1) (Or.inr (by omega)),
    hx p (q + 1) (Or.inr (by omega))]
  interval_cases p
  · simp [colval]; ring
  · simp [colval]
  · simp [colval]; ring
  · simp [colval]; ring

/-- The pressure iterates keep a column pattern, with the first column between
`-3m/2` and `-m` and the second between `-m/2` and `0`. -/
theorem FluidSystem.columnPattern_iterate [LinearOrderedField α] (s : FluidSystem α)
    (hw : s.width = 4) (hh : s.height = 4) (m : α) (hm : 0 ≤ m) (d : Grid α)
    (hd : ColumnPattern (-m) 0 d) (n : Nat) :
    ∃ a b : α, (-(3 / 2 * m) ≤ a ∧ a ≤ -m ∧ -(1 / 2 * m) ≤ b ∧ b ≤ 0) ∧
      ColumnPattern a b ((s.relaxStepSpec d 1 4 s.setContinuityBoundaries)^[n] d) := by
  induction n with
  | zero =>
    refine ⟨-m, 0, ⟨?_, le_refl _, ?_, le_refl _⟩, hd⟩
    · linarith
    · linarith
  | succ k ih =>
    obtain ⟨a, b, ⟨ha1, ha2, hb1, hb2⟩, hx⟩ := ih
    refine ⟨(-m + 3 * a + b) / 4, (a + b) / 4, ⟨?_, ?_, ?_, ?_⟩, ?_⟩
    · rw [le_div_iff₀ (by norm_num : (0 : α) < 4)]; linarith
    · rw [div_le_iff₀ (by norm_num : (0 : α) < 4)]; linarith
    · rw [le_div_iff₀ (by norm_num : (0 : α) < 4)]; linarith
    · rw [div_le_iff₀ (by norm_num : (0 : α) < 4)]; linarith
    · rw [Function.iterate_succ_apply']
      exact s.columnPattern_fill hw hh _ _ _
        (fun p q h1 h2 h3 h4 => s.columnPattern_sweep hw hh m a b d _ hd hx p q h1 h2 h3 h4)

/-- The right-hand side of the pressure equation for a flow between walls. -/
theorem FluidSystem.columnPattern_negDivergence [LinearOrderedField α] (s : FluidSystem α)
    (hw : s.width = 4) (hh : s.height = 4) (m : α) (v : VelocityField α)
    (hv : WallPattern m v) : ColumnPattern (-m) 0 (s.negDivergence v) := by
  unfold FluidSystem.negDivergence FluidSystem.setContinuityBoundaries
  apply s.columnPattern_fill hw hh
  intro p q h1 h2 h3 h4
  have hin : 1 ≤ p ∧ p ≤ s.width ∧ 1 ≤ q ∧ q ≤ s.height := by omega
  rw [Grid.scale_cell, s.div_cell, if_pos hin, hv.1 (p + 1) q (Or.inl (by omega)),
    hv.1 (p - 1) q (Or.inl (by omega)), hv.2 p (q + 1) (Or.inr (by omega)),
    hv.2 p (q - 1) (Or.inr (by omega))]
  interval_cases p
  · simp [colval]; ring
  · simp [colval]
  · simp [colval]
  · simp [colval]; ring

/-- The pressure of a flow between walls follows a column pattern. -/
theorem FluidSystem.columnPattern_pressure [LinearOrderedField α] (s : FluidSystem α)
    (hw : s.width = 4) (hh : s.height = 4) (m : α) (hm : 0 ≤ m) (v : VelocityField α)
    (hv : WallPattern m v) (n : Nat) :
    ∃ a b : α, (-(3 / 2 * m) ≤ a ∧ a ≤ -m ∧ -(1 / 2 * m) ≤ b ∧ b ≤ 0) ∧
      ColumnPattern a b (s.pressure n v) := by
  unfold FluidSystem.pressure
  rw [s.solvePoisson_eq_iterate]
  exact s.columnPattern_iterate hw hh m hm _ (s.columnPattern_negDivergence hw hh m v hv) n

/-- The y component of the projection of a flow between walls vanishes in the first
interior column and at its two border cells. -/
theorem FluidSystem.project_c1_wall [LinearOrderedField α] (s : FluidSystem α)
    (hw : s.width = 4) (hh : s.height = 4) (m a b : α) (v : VelocityField α)
    (hv : WallPattern m v) (n : Nat) (hp : ColumnPattern a b (s.pressure n v))
    (q : Nat) (hq : q ≤ 5) : (s.project n v).c1.cell 1 q = 0 := by
  have inner : ∀ q, 1 ≤ q → q ≤ 4 → (s.project n v).c1.cell 1 q = 0 := by
    intro q h1 h2
    rw [s.project_c1_interior n v 1 q (by omega) (by omega) (by omega) (by omega),
      hv.2 1 q (Or.inl (by omega)), hp 1 (q + 1) (Or.inr (by omega)),
      hp 1 (q - 1) (Or.inr (by omega))]
    simp
  have r := (s.project_reflective n v (by omega) (by omega)).2 1 (by omega) (by omega)
  by_cases c0 : q = 0
  · rw [c0, r.2.2.1, inner 1 (by omega) (by omega), neg_zero]
  · by_cases c5 : q = 5
    · have e : s.height + 1 = 5 := by omega
      rw [e] at r
      rw [c5, r.2.2.2, hh, inner 4 (by omega) (by omega), neg_zero]
    · exact inner q (by omega) (by omega)

/-- The divergence, after projection, of a flow between walls in the first interior
column: `m + a/2`, with `a` the pressure in that column. -/
theorem FluidSystem.divergence_project_wall [LinearOrderedField α] (s : FluidSystem α)
    (hw : s.width = 4) (hh : s.height = 4) (m : α) (hm : 0 ≤ m) (v : VelocityField α)
    (hv : WallPattern m v) (n : Nat) (j : Nat) (hj1 : 1 ≤ j) (hj2 : j ≤ 4) :
    1 / 4 * m ≤ FluidSystem.divergenceAt (s.project n v) 1 j ∧
      FluidSystem.divergenceAt (s.project n v) 1 j ≤ 1 / 2 * m := by
  obtain ⟨a, b, ⟨ha1, ha2, _, _⟩, hp⟩ := s.columnPattern_pressure hw hh m hm v hv n
  have e21 := s.project_c0_interior n v 2 j (by omega) (by omega) (by omega) (by omega)
  have e11 := s.project_c0_interior n v 1 j (by omega) (by omega) (by omega) (by omega)
  have r := (s.project_reflective n v (by omega) (by omega)).1 j (by omega) (by omega)
  have key : FluidSystem.divergenceAt (s.project n v) 1 j = m + 1 / 2 * a := by
    unfold FluidSystem.divergenceAt
    show 1 / 2 * ((s.project n v).c0.cell 2 j - (s.project n v).c0.cell 0 j) +
      1 / 2 * ((s.project n v).c1.cell 1 (j + 1) - (s.project n v).c1.cell 1 (j - 1)) = _
    rw [r.1, e21, e11, s.project_c1_wall hw hh m a b v hv n hp (j + 1) (by omega),
      s.project_c1_wall hw hh m a b v hv n hp (j - 1) (by omega),
      hv.1 2 j (Or.inl (by omega)), hv.1 1 j (Or.inl (by omega)),
      hp 3 j (Or.inl (by omega)), hp 1 j (Or.inl (by omega)),
      hp 2 j (Or.inl (by omega)), hp 0 j (Or.inl (by omega))]
    simp [colval]
    ring
  rw [key]
  constructor
  · linarith
  · linarith

/-- Diffusion at rate `0` with at least one sweep turns a field with x component `m`
and y component `0` in the interior into a flow between walls. -/
theorem FluidSystem.wallPattern_diffuse [LinearOrderedField α] (s : FluidSystem α)
    (hw : s.width = 4) (hh : s.height = 4) (m : α) (k : Nat) (out input : VelocityField α)
    (dt : α) (h0 : ∀ p q, 1 ≤ p → p ≤ 4 → 1 ≤ q → q ≤ 4 → input.c0.cell p q = m)
    (h1 : input.c1.IsZero) :
    WallPattern m (s.diffuse (k + 1) out input 0 dt s.setHorizontalNeumannBoundaries
      s.setVerticalNeumannBoundaries) := by
  constructor
  · intro p q hnc
    unfold NonCorner at hnc
    show (s.diffuseGrid (k + 1) out.c0 input.c0 0 dt s.setHorizontalNeumannBoundaries).cell
      p q = _
    unfold FluidSystem.diffuseGrid
    simp only [mul_zero, zero_mul, add_zero]
    rw [s.solvePoisson_eq_iterate, Function.iterate_succ_apply']
    show (s.setBoundaries (s.jacobiSweepSpec input.c0 0 1 _) 1).cell p q = _
    have hpre : ∀ p q, 1 ≤ p → p ≤ 4 → 1 ≤ q → q ≤ 4 →
        (s.jacobiSweepSpec input.c0 0 1
          ((s.relaxStepSpec input.c0 0 1 s.setHorizontalNeumannBoundaries)^[k]
            input.c0)).cell p q = m := by
      intro p q a1 a2 a3 a4
      have hin : 1 ≤ p ∧ p ≤ s.width ∧ 1 ≤ q ∧ q ≤ s.height := by omega
      simp only [FluidSystem.jacobiSweepSpec, if_pos hin, zero_mul, add_zero, div_one]
      exact h0 p q a1 a2 a3 a4
    rw [s.setBoundaries_cell _ 1 (by omega) (by omega)]
    simp only [hw, hh]
    by_cases c1 : q = 0 ∧ 1 ≤ p ∧ p ≤ 4
    · have e : ¬ (p = 0 ∨ p = 5) := by omega
      rw [if_pos c1, hpre p 1 (by omega) (by omega) (by omega) (by omega), if_neg e]
      simp
    · rw [if_neg c1]
      by_cases c2 : q = 4 + 1 ∧ 1 ≤ p ∧ p ≤ 4
      · have e : ¬ (p = 0 ∨ p = 5) := by omega
        rw [if_pos c2, hpre p 4 (by omega) (by omega) (by omega) (by omega), if_neg e]
        simp
      · rw [if_neg c2]
        by_cases c3 : p = 0 ∧ 1 ≤ q ∧ q ≤ 4
        · have e : p = 0 ∨ p = 5 := by omega
          rw [if_pos c3, hpre 1 q (by omega) (by omega) (by omega) (by omega), if_pos e]
          simp
        · rw [if_neg c3]
          by_cases c4 : p = 4 + 1 ∧ 1 ≤ q ∧ q ≤ 4
          · have e : p = 0 ∨ p = 5 := by omega
            rw [if_pos c4, hpre 4 q (by omega) (by omega) (by omega) (by omega), if_pos e]
            simp
          · have e : ¬ (p = 0 ∨ p = 5) := by omega
            rw [if_neg c4, if_neg e]
            exact hpre p q (by omega) (by omega) (by omega) (by omega)
  · intro p q _
    exact s.isZero_diffuseGrid (k + 1) out.c1 0 dt s.setVerticalNeumannBoundaries h1
      (fun _ hg => s.isZero_setBoundaries 2 hg) p q

/-- In the scenario of spec §8 (the `4 × 4` system, cleared, viscosity `0`, `dt = 1`,
uniform rightward `addedVelocity`) the divergence after the projection inside
`stepVelocity` lies between `1/4` and `1` in the first interior column, whatever the
number of sweeps. -/
theorem divergence_firstProjection_uniformRight (n j : Nat) (hj1 : 1 ≤ j) (hj2 : j ≤ 4) :
    1 / 4 ≤ FluidSystem.divergenceAt (sys44.clear.firstProjection n 1 uniformRight) 1 j ∧
      FluidSystem.divergenceAt (sys44.clear.firstProjection n 1 uniformRight) 1 j ≤ 1 := by
  have hc0 : ∀ p q, (sys44.clear.velocity.add uniformRight).c0.cell p q = 1 := by
    intro p q
    show (0 : ℚ) + 1 = 1
    norm_num
  have hc1 : (sys44.clear.velocity.add uniformRight).c1.IsZero := by
    intro p q
    show (0 : ℚ) + 0 = 0
    norm_num
  cases n with
  | zero =>
    have h := sys44.clear.divergence_project_uniform 0
      (sys44.clear.diffuse 0 sys44.clear.velocityPrev (sys44.clear.velocity.add uniformRight)
        sys44.clear.viscosity 1 sys44.clear.setHorizontalNeumannBoundaries
        sys44.clear.setVerticalNeumannBoundaries) 1 hc0 hc1 (by decide) j hj1 hj2
    unfold FluidSystem.firstProjection
    rw [h]
    norm_num
  | succ k =>
    have hv := sys44.clear.wallPattern_diffuse rfl rfl 1 k sys44.clear.velocityPrev
      (sys44.clear.velocity.add uniformRight) 1 (fun p q _ _ _ _ => hc0 p q) hc1
    have h := sys44.clear.divergence_project_wall rfl rfl 1 (by norm_num) _ hv (k + 1) j
      hj1 hj2
    have hvisc : sys44.clear.viscosity = 0 := rfl
    unfold FluidSystem.firstProjection
    rw [hvisc]
    constructor
    · have := h.1
      linarith
    · have := h.2
      linarith

/-- C7, as stated, fails: in the scenario, for no number of sweeps is the divergence
after the projection inside `stepVelocity` below `1/4` in magnitude at every interior
cell. -/
theorem C7_uniform_flow_divergence_counterexample :
    ¬ ∃ n : Nat, ∀ i j : Nat, 1 ≤ i → i ≤ 4 → 1 ≤ j → j ≤ 4 →
      |FluidSystem.divergenceAt (sys44.clear.firstProjection n 1 uniformRight) i j| <
        1 / 4 := by
  rintro ⟨n, h⟩
  have h1 := h 1 1 (by decide) (by decide) (by decide) (by decide)
  have h2 := (divergence_firstProjection_uniformRight n 1 (by decide) (by decide)).1
  rw [abs_of_nonneg (by linarith)] at h1
  linarith

/-- C7, amended: in the `4 × 4` system with diffusion constant `0`, viscosity `0` and
`dt = 1`, from the cleared state, with uniform rightward `addedVelocity` and zero
`addedDensity`, the velocity field after the projection inside `stepVelocity` (the
field `stepVelocity` leaves in `velocityPrev`) has, at every interior cell `(1, j)`
next to the left wall, a central-difference divergence between `1/4` and `1`,
whatever the number of sweeps: it is not near zero. -/
theorem C7_uniform_flow_divergence_at_wall (n j : Nat) (hj1 : 1 ≤ j) (hj2 : j ≤ 4) :
    (sys44.clear.stepVelocity n 1 uniformRight).velocityPrev =
        sys44.clear.firstProjection n 1 uniformRight ∧
      1 / 4 ≤ FluidSystem.divergenceAt
        (sys44.clear.stepVelocity n 1 uniformRight).velocityPrev 1 j ∧
      FluidSystem.divergenceAt
        (sys44.clear.stepVelocity n 1 uniformRight).velocityPrev 1 j ≤ 1 := by
  rw [FluidSystem.stepVelocity_velocityPrev]
  exact ⟨rfl, divergence_firstProjection_uniformRight n j hj1 hj2⟩

/-- C7 amended, at 20 sweeps and cell `(1, 1)`. -/
theorem C7_uniform_flow_divergence_at_wall_witness :
    (1 ≤ 1 ∧ 1 ≤ 4) ∧
      ((sys44.clear.stepVelocity 20 1 uniformRight).velocityPrev =
          sys44.clear.firstProjection 20 1 uniformRight ∧
        1 / 4 ≤ FluidSystem.divergenceAt
          (sys44.clear.stepVelocity 20 1 uniformRight).velocityPrev 1 1 ∧
        FluidSystem.divergenceAt
          (sys44.clear.stepVelocity 20 1 uniformRight).velocityPrev 1 1 ≤ 1) :=
  ⟨⟨by decide, by decide⟩,
    C7_uniform_flow_divergence_at_wall 20 1 (by decide) (by decide)⟩

theorem wallPattern_wallField (m : ℚ) : WallPattern m (wallField m) :=
  ⟨fun _ _ _ => rfl, fun _ _ _ => rfl⟩

/-- C2, as stated, fails: in the `4 × 4` system no iteration count and no tolerance
bound the divergence after `project` at every interior cell for every input field.
The uniform flow of magnitude `4·(|tol| + 1)` between reflecting walls is projected to
a field whose divergence at `(1, 1)` is at least `|tol| + 1`. -/
theorem C2_divergence_after_project_counterexample :
    ¬ ∃ (n : Nat) (tol : ℚ), ∀ (v : VelocityField ℚ) (i j : Nat),
        1 ≤ i → i ≤ sys44.width → 1 ≤ j → j ≤ sys44.height →
        |FluidSystem.divergenceAt (sys44.project n v) i j| ≤ tol := by
  rintro ⟨n, tol, h⟩
  have h1 := h (wallField (4 * (|tol| + 1))) 1 1 (by decide) (by decide) (by decide)
    (by decide)
  have h3 : 0 ≤ |tol| := abs_nonneg tol
  have h4 := (sys44.divergence_project_wall rfl rfl (4 * (|tol| + 1)) (by linarith) _
    (wallPattern_wallField _) n 1 (by decide) (by decide)).1
  have h2 : tol ≤ |tol| := le_abs_self tol
  rw [abs_of_nonneg (by linarith)] at h1
  linarith

/-- The divergence of a flow between walls before projection, in the first interior
column. -/
theorem divergence_wallPattern [LinearOrderedField α] (m : α) (v : VelocityField α)
    (hv : WallPattern m v) (j : Nat) (hj1 : 1 ≤ j) (hj2 : j ≤ 4) :
    FluidSystem.divergenceAt v 1 j = m := by
  unfold FluidSystem.divergenceAt
  have e0 : (1 : Nat) - 1 = 0 := rfl
  have e2 : (1 : Nat) + 1 = 2 := rfl
  rw [e0, e2, hv.1 2 j (Or.inl (by omega)), hv.1 0 j (Or.inl (by omega)),
    hv.2 1 (j + 1) (Or.inr (by omega)), hv.2 1 (j - 1) (Or.inr (by omega))]
  simp
  ring

/-- C2, amended: in exact arithmetic `project` leaves a divergence fixed by the
pressure `p` it solves for, not a small one.  For every system, sweep count and input
field `(u, v)`, at every interior cell `(i, j)`: the result holds
`U[i,j] = u[i,j] − 0.5·(p[i+1,j] − p[i−1,j])` and
`V[i,j] = v[i,j] − 0.5·(p[i,j+1] − p[i,j−1])`, and its divergence there is
`0.5·(R − L) + 0.5·(T − B)` with `R = U[i+1,j]` (`−U[width,j]` if `i = width`),
`L = U[i−1,j]` (`−U[1,j]` if `i = 1`), `T = V[i,j+1]` (`−V[i,height]` if `j = height`),
`B = V[i,j−1]` (`−V[i,1]` if `j = 1`).  If the four neighbours are interior
(`2 ≤ i ≤ width − 1`, `2 ≤ j ≤ height − 1`) this is the divergence before minus
`0.25·(p[i+2,j] − 2p[i,j] + p[i−2,j]) + 0.25·(p[i,j+2] − 2p[i,j] + p[i,j−2])`.  On a
`4 × 4` system, in the first column `i = 1`, for an input that on the non-corner cells
has x component `m ≥ 0` inside and on the bottom and top strips, `−m` on the left and
right strips, and y component `0`, the divergence is `m` before `project` and between
`m/4` and `m/2` after it, whatever the sweep count. -/
theorem C2_divergence_after_project_formula [LinearOrderedField α] (s : FluidSystem α)
    (n : Nat) (v : VelocityField α) (i j : Nat) (h1 : 1 ≤ i) (h2 : i ≤ s.width)
    (h3 : 1 ≤ j) (h4 : j ≤ s.height) :
    (s.project n v).c0.cell i j = s.correctedX n v i j ∧
      (s.project n v).c1.cell i j = s.correctedY n v i j ∧
      FluidSystem.divergenceAt (s.project n v) i j =
        1 / 2 * ((if i = s.width then -s.correctedX n v s.width j
              else s.correctedX n v (i + 1) j) -
            (if i = 1 then -s.correctedX n v 1 j else s.correctedX n v (i - 1) j)) +
          1 / 2 * ((if j = s.height then -s.correctedY n v i s.height
              else s.correctedY n v i (j + 1)) -
            (if j = 1 then -s.correctedY n v i 1 else s.correctedY n v i (j - 1))) ∧
      (2 ≤ i → i + 1 ≤ s.width → 2 ≤ j → j + 1 ≤ s.height →
        FluidSystem.divergenceAt (s.project n v) i j =
          FluidSystem.divergenceAt v i j - s.pressureResidual n v i j) ∧
      (s.width = 4 → s.height = 4 → i = 1 → ∀ m : α, 0 ≤ m → WallPattern m v →
        FluidSystem.divergenceAt v i j = m ∧
          1 / 4 * m ≤ FluidSystem.divergenceAt (s.project n v) i j ∧
          FluidSystem.divergenceAt (s.project n v) i j ≤ 1 / 2 * m) := by
  refine ⟨s.project_c0_interior n v i j h1 h2 h3 h4, s.project_c1_interior n v i j h1 h2 h3 h4,
    s.divergence_project_interior n v i j h1 h2 h3 h4, ?_, ?_⟩
  · intro a1 a2 a3 a4
    exact s.divergence_project_inner n v i j a1 a2 a3 a4
  · intro hw4 hh4 hi m hm hv
    subst hi
    exact ⟨divergence_wallPattern m v hv j h3 (by omega),
      s.divergence_project_wall hw4 hh4 m hm v hv n j h3 (by omega)⟩

/-- C2 amended, at concrete inputs: the `4 × 4` system, 20 sweeps, the flow of magnitude
`1` between walls, whose pressure is not zero; the divergence formula and the bounds at
the wall cell `(1, 1)`, the residual at the inner cell `(2, 2)`. -/
theorem C2_divergence_after_project_formula_witness :
    (1 ≤ 1 ∧ 1 ≤ sys44.width ∧ 1 ≤ 1 ∧ 1 ≤ sys44.height) ∧
      (2 ≤ 2 ∧ 2 + 1 ≤ sys44.width ∧ 2 ≤ 2 ∧ 2 + 1 ≤ sys44.height) ∧
      (0 ≤ (1 : ℚ) ∧ WallPattern 1 (wallField 1)) ∧
      FluidSystem.divergenceAt (sys44.project 20 (wallField 1)) 1 1 =
        1 / 2 * ((if 1 = sys44.width then -sys44.correctedX 20 (wallField 1) sys44.width 1
              else sys44.correctedX 20 (wallField 1) (1 + 1) 1) -
            (if 1 = 1 then -sys44.correctedX 20 (wallField 1) 1 1
              else sys44.correctedX 20 (wallField 1) (1 - 1) 1)) +
          1 / 2 * ((if 1 = sys44.height then -sys44.correctedY 20 (wallField 1) 1 sys44.height
              else sys44.correctedY 20 (wallField 1) 1 (1 + 1)) -
            (if 1 = 1 then -sys44.correctedY 20 (wallField 1) 1 1
              else sys44.correctedY 20 (wallField 1) 1 (1 - 1))) ∧
      FluidSystem.divergenceAt (sys44.project 20 (wallField 1)) 2 2 =
        FluidSystem.divergenceAt (wallField 1) 2 2 -
          sys44.pressureResidual 20 (wallField 1) 2 2 ∧
      (FluidSystem.divergenceAt (wallField 1) 1 1 = 1 ∧
        1 / 4 * 1 ≤ FluidSystem.divergenceAt (sys44.project 20 (wallField 1)) 1 1 ∧
        FluidSystem.divergenceAt (sys44.project 20 (wallField 1)) 1 1 ≤ 1 / 2 * 1) :=
  ⟨⟨by decide, by decide, by decide, by decide⟩,
    ⟨by decide, by decide, by decide, by decide⟩,
    ⟨by norm_num, wallPattern_wallField 1⟩,
    (C2_divergence_after_project_formula sys44 20 (wallField 1) 1 1 (by decide) (by decide)
      (by decide) (by decide)).2.2.1,
    (C2_divergence_after_project_formula sys44 20 (wallField 1) 2 2 (by decide) (by decide)
      (by decide) (by decide)).2.2.2.1 (by decide) (by decide) (by decide) (by decide),
    (C2_divergence_after_project_formula sys44 20 (wallField 1) 1 1 (by decide) (by decide)
      (by decide) (by decide)).2.2.2.2 rfl rfl rfl 1 (by norm_num)
      (wallPattern_wallField 1)⟩

end Walls

/-! ## The relaxation solver and the border of its source -/

section SourceBorder

variable {α : Type}

/-- The Jacobi sweep reads the source at interior cells and the iterate at interior
and non-corner border cells only. -/
theorem FluidSystem.jacobiSweepSpec_congr [Zero α] [Add α] [Mul α] [Div α]
    (s : FluidSystem α) (a c : α) {x_0 x_0' y y' : Grid α}
    (h0 : ∀ p q, 1 ≤ p → p ≤ s.width → 1 ≤ q → q ≤ s.height → x_0.cell p q = x_0'.cell p q)
    (hy : ∀ p q, (1 ≤ q ∧ q ≤ s.height ∧ p ≤ s.width + 1) ∨
      (1 ≤ p ∧ p ≤ s.width ∧ q ≤ s.height + 1) → y.cell p q = y'.cell p q) :
    s.jacobiSweepSpec x_0 a c y = s.jacobiSweepSpec x_0' a c y' := by
  apply Grid.ext_cells
  · rfl
  · intro p q
    by_cases h : 1 ≤ p ∧ p ≤ s.width ∧ 1 ≤ q ∧ q ≤ s.height
    · simp only [FluidSystem.jacobiSweepSpec, if_pos h]
      rw [h0 p q h.1 h.2.1 h.2.2.1 h.2.2.2, hy (p - 1) q (Or.inl (by omega)),
        hy (p + 1) q (Or.inl (by omega)), hy p (q - 1) (Or.inr (by omega)),
        hy p (q + 1) (Or.inr (by omega))]
    · simp only [FluidSystem.jacobiSweepSpec, if_neg h]

/-- Two sources that agree on the interior and on the non-corner border cells have the
same relaxation result after at least one sweep. -/
theorem FluidSystem.solvePoisson_congr_source [Zero α] [Add α] [Mul α] [Div α]
    (s : FluidSystem α) (a c : α) (policy : Grid α → Grid α) (k : Nat)
    (x x' x_0 x_0' : Grid α)
    (h : ∀ p q, (1 ≤ q ∧ q ≤ s.height ∧ p ≤ s.width + 1) ∨
      (1 ≤ p ∧ p ≤ s.width ∧ q ≤ s.height + 1) → x_0.cell p q = x_0'.cell p q) :
    s.solvePoisson x x_0 a c policy (k + 1) = s.solvePoisson x' x_0' a c policy (k + 1) := by
  have h0 : ∀ p q, 1 ≤ p → p ≤ s.width → 1 ≤ q → q ≤ s.height →
      x_0.cell p q = x_0'.cell p q :=
    fun p q h1 h2 h3 h4 => h p q (Or.inl (by omega))
  have hf : s.relaxStepSpec x_0 a c policy = s.relaxStepSpec x_0' a c policy := by
    funext y
    unfold FluidSystem.relaxStepSpec
    rw [s.jacobiSweepSpec_congr a c h0 (fun _ _ _ => rfl)]
  have h1 : s.relaxStepSpec x_0 a c policy x_0 = s.relaxStepSpec x_0' a c policy x_0' := by
    unfold FluidSystem.relaxStepSpec
    rw [s.jacobiSweepSpec_congr a c h0 h]
  rw [s.solvePoisson_eq_iterate, s.solvePoisson_eq_iterate, Function.iterate_succ_apply,
    Function.iterate_succ_apply, h1, hf]

/-- C11, as stated, fails: on the `2 × 2` system, with `a = 1`, `c = 1`, the continuity
policy and one sweep, the zero grid and the grid that differs from it only in the
border cell `(0, 1)` agree on every interior cell, yet the results differ at the
interior cell `(1, 1)`: the first sweep reads the border of the source. -/
theorem C11_source_border_leaks_counterexample :
    (∀ i j, 1 ≤ i → i ≤ sys22.width → 1 ≤ j → j ≤ sys22.height →
        zeroGrid.cell i j = (zeroGrid.set 0 1 1).cell i j) ∧
      (sys22.solvePoisson zeroGrid zeroGrid 1 1
        (BoundaryPolicy.continuity.fill sys22) 1).cell 1 1 = 0 ∧
      (sys22.solvePoisson zeroGrid (zeroGrid.set 0 1 1) 1 1
        (BoundaryPolicy.continuity.fill sys22) 1).cell 1 1 = 1 := by
  refine ⟨?_, ?_, ?_⟩
  · intro i j h1 _ _ _
    have e : ¬ (i = 0 ∧ j = 1) := by omega
    rw [Grid.set_cell, if_neg e]
  · rw [FluidSystem.solvePoisson_eq_iterate, Function.iterate_one]
    unfold FluidSystem.relaxStepSpec
    rw [FluidSystem.fill_cell_unwritten sys22 _ _ 1 1 (by decide) (by decide)]
    have hin : 1 ≤ 1 ∧ 1 ≤ sys22.width ∧ 1 ≤ 1 ∧ 1 ≤ sys22.height := by decide
    simp only [FluidSystem.jacobiSweepSpec, if_pos hin]
    simp [zeroGrid]
  · rw [FluidSystem.solvePoisson_eq_iterate, Function.iterate_one]
    unfold FluidSystem.relaxStepSpec
    rw [FluidSystem.fill_cell_unwritten sys22 _ _ 1 1 (by decide) (by decide)]
    have hin : 1 ≤ 1 ∧ 1 ≤ sys22.width ∧ 1 ≤ 1 ∧ 1 ≤ sys22.height := by decide
    simp only [FluidSystem.jacobiSweepSpec, if_pos hin]
    simp [zeroGrid]

/-- C11, amended: the relaxation solver reads the border of its source in the first
sweep only, and never its corners.  For every `a`, `c`, boundary policy and iteration
count `n ≥ 1`, if two source grids agree on every interior cell and on every
non-corner border cell, the results of `solvePoisson` are equal (so they agree on every
interior cell); what the sources hold at corner cells, and what the out-parameter held
on entry, plays no part. -/
theorem C11_source_border_read_once [Zero α] [Add α] [Mul α] [Div α]
    (s : FluidSystem α) (a c : α) (policy : Grid α → Grid α) (n : Nat) (hn : 1 ≤ n)
    (x x' x_0 x_0' : Grid α)
    (h : ∀ p q, (1 ≤ q ∧ q ≤ s.height ∧ p ≤ s.width + 1) ∨
      (1 ≤ p ∧ p ≤ s.width ∧ q ≤ s.height + 1) → x_0.cell p q = x_0'.cell p q) :
    s.solvePoisson x x_0 a c policy n = s.solvePoisson x' x_0' a c policy n := by
  obtain ⟨k, rfl⟩ : ∃ k, n = k + 1 := ⟨n - 1, by omega⟩
  exact s.solvePoisson_congr_source a c policy k x x' x_0 x_0' h

/-- C11 amended, at a concrete input: the `2 × 2` system, `a = 1`, `c = 4`, continuity,
20 sweeps, the ramp grid and the ramp grid with another value in the corner `(0,0)`. -/
theorem C11_source_border_read_once_witness :
    (1 ≤ 20 ∧
      ∀ p q, (1 ≤ q ∧ q ≤ sys22.height ∧ p ≤ sys22.width + 1) ∨
        (1 ≤ p ∧ p ≤ sys22.width ∧ q ≤ sys22.height + 1) →
        rampGrid.cell p q = (rampGrid.set 0 0 7).cell p q) ∧
      sys22.solvePoisson zeroGrid rampGrid 1 4 (BoundaryPolicy.continuity.fill sys22) 20 =
        sys22.solvePoisson zeroGrid (rampGrid.set 0 0 7) 1 4
          (BoundaryPolicy.continuity.fill sys22) 20 :=
  ⟨⟨by decide, fun p q h => by
      have e : ¬ (p = 0 ∧ q = 0) := by omega
      rw [Grid.set_cell, if_neg e]⟩,
    C11_source_border_read_once sys22 1 4 (BoundaryPolicy.continuity.fill sys22) 20
      (by decide) zeroGrid zeroGrid rampGrid (rampGrid.set 0 0 7) (fun p q h => by
        have e : ¬ (p = 0 ∧ q = 0) := by omega
        rw [Grid.set_cell, if_neg e])⟩

end SourceBorder

/-! ## `clear`, and the algebra of boundary fills -/

section FillAlgebra

variable {α : Type}

/-- C12: `clear()` is idempotent and touches only the grids.  For every system state,
`clear()` twice is `clear()` once; after it every cell of `density`, `velocity`,
`densityPrev` and `velocityPrev` is zero, the grids keep their dimensions, and
`width`, `height`, `diffusionConstant` and `viscosity` keep their values. -/
theorem C12_clear_idempotent [Zero α] (s : FluidSystem α) :
    s.clear.clear = s.clear ∧
      (s.clear.density.IsZero ∧ s.clear.velocity.IsZero ∧ s.clear.densityPrev.IsZero ∧
        s.clear.velocityPrev.IsZero) ∧
      (s.clear.density.dims = s.density.dims ∧ s.clear.velocity.c0.dims = s.velocity.c0.dims ∧
        s.clear.velocity.c1.dims = s.velocity.c1.dims ∧
        s.clear.densityPrev.dims = s.densityPrev.dims ∧
        s.clear.velocityPrev.c0.dims = s.velocityPrev.c0.dims ∧
        s.clear.velocityPrev.c1.dims = s.velocityPrev.c1.dims) ∧
      (s.clear.width = s.width ∧ s.clear.height = s.height ∧
        s.clear.diffusionConstant = s.diffusionConstant ∧ s.clear.viscosity = s.viscosity ∧
        s.clear.fullWidth = s.fullWidth ∧ s.clear.fullHeight = s.fullHeight ∧
        s.clear.fullDimensions = s.fullDimensions) :=
  ⟨rfl, ⟨fun _ _ => rfl, ⟨fun _ _ => rfl, fun _ _ => rfl⟩, fun _ _ => rfl,
      ⟨fun _ _ => rfl, fun _ _ => rfl⟩⟩,
    ⟨rfl, rfl, rfl, rfl, rfl, rfl⟩, ⟨rfl, rfl, rfl, rfl, rfl, rfl, rfl⟩⟩

/-- C15: for every grid and every boundary policy the boundary fill leaves every
interior cell (`1 ≤ i ≤ width`, `1 ≤ j ≤ height`) unchanged. -/
theorem C15_boundary_fill_keeps_interior [One α] [Neg α] [Mul α] (s : FluidSystem α)
    (grid : Grid α) (p : BoundaryPolicy) (i j : Nat) (h1 : 1 ≤ i) (h2 : i ≤ s.width)
    (h3 : 1 ≤ j) (h4 : j ≤ s.height) : (p.fill s grid).cell i j = grid.cell i j :=
  s.fill_cell_unwritten p grid i j (by omega) (by omega)

/-- C15 at a concrete input: the `2 × 2` system, the ramp grid, the vertical-reflective
policy, cell `(2, 1)`. -/
theorem C15_boundary_fill_keeps_interior_witness :
    (1 ≤ 2 ∧ 2 ≤ sys22.width ∧ 1 ≤ 1 ∧ 1 ≤ sys22.height) ∧
      (BoundaryPolicy.verticalReflective.fill sys22 rampGrid).cell 2 1 = rampGrid.cell 2 1 :=
  ⟨⟨by decide, by decide, by decide, by decide⟩,
    C15_boundary_fill_keeps_interior sys22 rampGrid BoundaryPolicy.verticalReflective 2 1
      (by decide) (by decide) (by decide) (by decide)⟩

theorem FluidSystem.fill_dims [One α] [Neg α] [Mul α] (s : FluidSystem α)
    (p : BoundaryPolicy) (grid : Grid α) : (p.fill s grid).dims = grid.dims := by
  rw [s.fill_eq_setBoundaries]
  exact s.setBoundaries_dims grid _

/-- A boundary fill forgets what an earlier fill wrote. -/
theorem FluidSystem.fill_fill [One α] [Neg α] [Mul α] (s : FluidSystem α)
    (p q : BoundaryPolicy) (grid : Grid α) (hw : 1 ≤ s.width) (hh : 1 ≤ s.height) :
    q.fill s (p.fill s grid) = q.fill s grid := by
  apply Grid.ext_cells
  · rw [s.fill_dims, s.fill_dims, s.fill_dims]
  · intro i j
    rw [s.fill_cell q _ hw hh, s.fill_cell q grid hw hh]
    by_cases c1 : j = 0 ∧ 1 ≤ i ∧ i ≤ s.width
    · rw [if_pos c1, if_pos c1, s.fill_cell_unwritten p grid i 1 (by omega) (by omega)]
    · rw [if_neg c1, if_neg c1]
      by_cases c2 : j = s.height + 1 ∧ 1 ≤ i ∧ i ≤ s.width
      · rw [if_pos c2, if_pos c2,
          s.fill_cell_unwritten p grid i s.height (by omega) (by omega)]
      · rw [if_neg c2, if_neg c2]
        by_cases c3 : i = 0 ∧ 1 ≤ j ∧ j ≤ s.height
        · rw [if_pos c3, if_pos c3, s.fill_cell_unwritten p grid 1 j (by omega) (by omega)]
        · rw [if_neg c3, if_neg c3]
          by_cases c4 : i = s.width + 1 ∧ 1 ≤ j ∧ j ≤ s.height
          · rw [if_pos c4, if_pos c4,
              s.fill_cell_unwritten p grid s.width j (by omega) (by omega)]
          · rw [if_neg c4, if_neg c4]
            exact s.fill_cell_unwritten p grid i j (by omega) (by omega)

/-- C16: for every grid of a system with `width ≥ 1` and `height ≥ 1` and every pair of
boundary policies `p` and `q`, the fill with `p` followed by the fill with `q` gives
the same grid as the fill with `q` alone; in particular each fill is idempotent. -/
theorem C16_boundary_fill_last_policy_wins [One α] [Neg α] [Mul α] (s : FluidSystem α)
    (grid : Grid α) (p q : BoundaryPolicy) (hw : 1 ≤ s.width) (hh : 1 ≤ s.height) :
    q.fill s (p.fill s grid) = q.fill s grid ∧ p.fill s (p.fill s grid) = p.fill s grid :=
  ⟨s.fill_fill p q grid hw hh, s.fill_fill p p grid hw hh⟩

/-- C16 at a concrete input: the `2 × 2` system, the ramp grid, horizontal-reflective
then continuity. -/
theorem C16_boundary_fill_last_policy_wins_witness :
    (1 ≤ sys22.width ∧ 1 ≤ sys22.height) ∧
      (BoundaryPolicy.continuity.fill sys22
          (BoundaryPolicy.horizontalReflective.fill sys22 rampGrid) =
        BoundaryPolicy.continuity.fill sys22 rampGrid ∧
      BoundaryPolicy.horizontalReflective.fill sys22
          (BoundaryPolicy.horizontalReflective.fill sys22 rampGrid) =
        BoundaryPolicy.horizontalReflective.fill sys22 rampGrid) :=
  ⟨⟨by decide, by decide⟩,
    C16_boundary_fill_last_policy_wins sys22 rampGrid BoundaryPolicy.horizontalReflective
      BoundaryPolicy.continuity (by decide) (by decide)⟩

end FillAlgebra

/-! ## The projection formula -/

section ProjectionFormula

variable {α : Type}

/-- C14: for every input velocity field `(u, v)`, at every interior cell `project`
returns `u'[i,j] = u[i,j] − 0.5·(p[i+1,j] − p[i−1,j])` and
`v'[i,j] = v[i,j] − 0.5·(p[i,j+1] − p[i,j−1])`, where the pressure `p` is the result of
`solvePoisson` with `a = 1`, `c = 4` and the continuity policy on the source grid `d`;
the interior of `d` is the negated central-difference divergence of `(u, v)` and its
non-corner border cells copy the adjacent interior cell (continuity). -/
theorem C14_project_subtracts_pressure_gradient [Field α] (s : FluidSystem α) (n : Nat)
    (v : VelocityField α) (i j : Nat) (h1 : 1 ≤ i) (h2 : i ≤ s.width) (h3 : 1 ≤ j)
    (h4 : j ≤ s.height) :
    (s.project n v).c0.cell i j =
        v.c0.cell i j -
          1 / 2 * ((s.pressure n v).cell (i + 1) j - (s.pressure n v).cell (i - 1) j) ∧
      (s.project n v).c1.cell i j =
        v.c1.cell i j -
          1 / 2 * ((s.pressure n v).cell i (j + 1) - (s.pressure n v).cell i (j - 1)) ∧
      s.pressure n v =
        s.solvePoisson (s.setContinuityBoundaries (Grid.zero s.fullDimensions))
          (s.negDivergence v) 1 4 s.setContinuityBoundaries n ∧
      (s.negDivergence v).cell i j =
        -(1 / 2 * (v.c0.cell (i + 1) j - v.c0.cell (i - 1) j) +
          1 / 2 * (v.c1.cell i (j + 1) - v.c1.cell i (j - 1))) ∧
      (s.negDivergence v).cell 0 j = (s.negDivergence v).cell 1 j ∧
      (s.negDivergence v).cell (s.width + 1) j = (s.negDivergence v).cell s.width j ∧
      (s.negDivergence v).cell i 0 = (s.negDivergence v).cell i 1 ∧
      (s.negDivergence v).cell i (s.height + 1) = (s.negDivergence v).cell i s.height := by
  have hm := s.fill_mirror_self BoundaryPolicy.continuity
    (Grid.scale (-1) (s.div (Grid.zero s.fullDimensions) v)) (by omega) (by omega)
  simp only [BoundaryPolicy.signX, BoundaryPolicy.signY, one_mul] at hm
  exact ⟨s.project_c0_interior n v i j h1 h2 h3 h4, s.project_c1_interior n v i j h1 h2 h3 h4,
    rfl, s.negDivergence_interior v i j h1 h2 h3 h4, (hm.1 j h3 h4).1, (hm.1 j h3 h4).2,
    (hm.2 i h1 h2).1, (hm.2 i h1 h2).2⟩

/-- C14 at a concrete input: the `4 × 4` system, 20 sweeps, the flow between walls,
cell `(1, 1)`. -/
theorem C14_project_subtracts_pressure_gradient_witness :
    (1 ≤ 1 ∧ 1 ≤ sys44.width ∧ 1 ≤ 1 ∧ 1 ≤ sys44.height) ∧
    ((sys44.project 20 (wallField 1)).c0.cell 1 1 =
        (wallField 1).c0.cell 1 1 -
          1 / 2 * ((sys44.pressure 20 (wallField 1)).cell (1 + 1) 1 -
            (sys44.pressure 20 (wallField 1)).cell (1 - 1) 1) ∧
      (sys44.project 20 (wallField 1)).c1.cell 1 1 =
        (wallField 1).c1.cell 1 1 -
          1 / 2 * ((sys44.pressure 20 (wallField 1)).cell 1 (1 + 1) -
            (sys44.pressure 20 (wallField 1)).cell 1 (1 - 1)) ∧
      sys44.pressure 20 (wallField 1) =
        sys44.solvePoisson (sys44.setContinuityBoundaries (Grid.zero sys44.fullDimensions))
          (sys44.negDivergence (wallField 1)) 1 4 sys44.setContinuityBoundaries 20 ∧
      (sys44.negDivergence (wallField 1)).cell 1 1 =
        -(1 / 2 * ((wallField 1).c0.cell (1 + 1) 1 - (wallField 1).c0.cell (1 - 1) 1) +
          1 / 2 * ((wallField 1).c1.cell 1 (1 + 1) - (wallField 1).c1.cell 1 (1 - 1))) ∧
      (sys44.negDivergence (wallField 1)).cell 0 1 =
        (sys44.negDivergence (wallField 1)).cell 1 1 ∧
      (sys44.negDivergence (wallField 1)).cell (sys44.width + 1) 1 =
        (sys44.negDivergence (wallField 1)).cell sys44.width 1 ∧
      (sys44.negDivergence (wallField 1)).cell 1 0 =
        (sys44.negDivergence (wallField 1)).cell 1 1 ∧
      (sys44.negDivergence (wallField 1)).cell 1 (sys44.height + 1) =
        (sys44.negDivergence (wallField 1)).cell 1 sys44.height) :=
  ⟨⟨by decide, by decide, by decide, by decide⟩,
    C14_project_subtracts_pressure_gradient sys44 20 (wallField 1) 1 1 (by decide)
      (by decide) (by decide) (by decide)⟩

/-- C17: for every velocity field whose central-difference divergence is zero at every
interior cell, and every iteration count, the pressure is zero everywhere and
`project` leaves every interior cell of both components unchanged. -/
theorem C17_project_fixes_divergence_free_interior [Field α] (s : FluidSystem α) (n : Nat)
    (v : VelocityField α)
    (hv : ∀ i j, 1 ≤ i → i ≤ s.width → 1 ≤ j → j ≤ s.height →
      1 / 2 * (v.c0.cell (i + 1) j - v.c0.cell (i - 1) j) +
        1 / 2 * (v.c1.cell i (j + 1) - v.c1.cell i (j - 1)) = 0) :
    (s.pressure n v).IsZero ∧
      ∀ i j, 1 ≤ i → i ≤ s.width → 1 ≤ j → j ≤ s.height →
        (s.project n v).c0.cell i j = v.c0.cell i j ∧
        (s.project n v).c1.cell i j = v.c1.cell i j := by
  have hp : (s.pressure n v).IsZero := s.isZero_pressure_of_divFree n v hv
  refine ⟨hp, fun i j h1 h2 h3 h4 => ⟨?_, ?_⟩⟩
  · rw [s.project_c0_interior n v i j h1 h2 h3 h4, hp _ _, hp _ _, sub_zero, mul_zero,
      sub_zero]
  · rw [s.project_c1_interior n v i j h1 h2 h3 h4, hp _ _, hp _ _, sub_zero, mul_zero,
      sub_zero]

theorem uniformRight_divergence (i j : Nat) :
    1 / 2 * (uniformRight.c0.cell (i + 1) j - uniformRight.c0.cell (i - 1) j) +
      1 / 2 * (uniformRight.c1.cell i (j + 1) - uniformRight.c1.cell i (j - 1)) = 0 := by
  show (1 / 2 : ℚ) * (1 - 1) + 1 / 2 * (0 - 0) = 0
  norm_num

/-- C17 at a concrete input: the `4 × 4` system, 20 sweeps, the uniform rightward
field (borders included), whose divergence vanishes. -/
theorem C17_project_fixes_divergence_free_interior_witness :
    (∀ i j, 1 ≤ i → i ≤ sys44.width → 1 ≤ j → j ≤ sys44.height →
      1 / 2 * (uniformRight.c0.cell (i + 1) j - uniformRight.c0.cell (i - 1) j) +
        1 / 2 * (uniformRight.c1.cell i (j + 1) - uniformRight.c1.cell i (j - 1)) = 0) ∧
    ((sys44.pressure 20 uniformRight).IsZero ∧
      ∀ i j, 1 ≤ i → i ≤ sys44.width → 1 ≤ j → j ≤ sys44.height →
        (sys44.project 20 uniformRight).c0.cell i j = uniformRight.c0.cell i j ∧
        (sys44.project 20 uniformRight).c1.cell i j = uniformRight.c1.cell i j) :=
  ⟨fun i j _ _ _ _ => uniformRight_divergence i j,
    C17_project_fixes_divergence_free_interior sys44 20 uniformRight
      (fun i j _ _ _ _ => uniformRight_divergence i j)⟩

end ProjectionFormula

/-! ## Index safety -/

section Checked

variable {α : Type}

theorem checkedPred_of_pos (i : Nat) (h : 1 ≤ i) : checkedPred i = some (i - 1) := by
  unfold checkedPred
  rw [if_pos h]

theorem FluidSystem.getChecked_of_le (s : FluidSystem α) (g : Grid α) (i j : Nat)
    (h1 : i ≤ s.width + 1) (h2 : j ≤ s.height + 1) : s.getChecked g i j = some (g.get i j) := by
  unfold FluidSystem.getChecked
  rw [if_pos ⟨h1, h2⟩]

theorem FluidSystem.setChecked_of_le (s : FluidSystem α) (g : Grid α) (i j : Nat) (v : α)
    (h1 : i ≤ s.width + 1) (h2 : j ≤ s.height + 1) :
    s.setChecked g i j v = some (g.set i j v) := by
  unfold FluidSystem.setChecked
  rw [if_pos ⟨h1, h2⟩]

/-- A checked loop whose body succeeds at every index of its range succeeds, with the
state the unchecked loop computes. -/
theorem forLoopChecked_eq_some {σ : Type} (body : Nat → σ → Option σ) (plain : Nat → σ → σ)
    (cnt : Nat) :
    ∀ (lo : Nat) (st : σ),
      (∀ k st, lo ≤ k → k < lo + cnt → body k st = some (plain k st)) →
      forLoopChecked lo cnt body st = some (forLoop lo cnt plain st) := by
  induction cnt with
  | zero => intro lo st _; rfl
  | succ n ih =>
    intro lo st h
    simp only [forLoopChecked, forLoop]
    rw [h lo st (Nat.le_refl lo) (by omega), Option.some_bind]
    exact ih (lo + 1) _ (fun k st h1 h2 => h k st (by omega) (by omega))

theorem FluidSystem.setBoundariesChecked_eq [One α] [Neg α] [Mul α] (s : FluidSystem α)
    (grid : Grid α) (b : Int) :
    s.setBoundariesChecked grid b = some (s.setBoundaries grid b) := by
  unfold FluidSystem.setBoundariesChecked FluidSystem.setBoundaries
  rw [forLoopChecked_eq_some _ (fun j (grid : Grid α) =>
      (grid.set 0 j ((if b = 1 then -1 else 1) * grid.get 1 j)).set (s.width + 1) j
        ((if b = 1 then -1 else 1) *
          (grid.set 0 j ((if b = 1 then -1 else 1) * grid.get 1 j)).get s.width j)),
    Option.some_bind]
  · apply forLoopChecked_eq_some
    intro k st h1 h2
    rw [s.getChecked_of_le st k 1 (by omega) (by omega), Option.some_bind,
      s.setChecked_of_le st k 0 _ (by omega) (by omega), Option.some_bind,
      s.getChecked_of_le _ k s.height (by omega) (by omega), Option.some_bind,
      s.setChecked_of_le _ k (s.height + 1) _ (by omega) (by omega)]
  · intro k st h1 h2
    rw [s.getChecked_of_le st 1 k (by omega) (by omega), Option.some_bind,
      s.setChecked_of_le st 0 k _ (by omega) (by omega), Option.some_bind,
      s.getChecked_of_le _ s.width k (by omega) (by omega), Option.some_bind,
      s.setChecked_of_le _ (s.width + 1) k _ (by omega) (by omega)]

theorem FluidSystem.relaxIntoChecked_eq [Add α] [Mul α] [Div α] (s : FluidSystem α)
    (x_0 x : Grid α) (a c : α) (temp : Grid α) :
    s.relaxIntoChecked x_0 x a c temp = some (s.relaxInto x_0 x a c temp) := by
  unfold FluidSystem.relaxIntoChecked FluidSystem.relaxInto
  apply forLoopChecked_eq_some
  intro i t hi1 hi2
  apply forLoopChecked_eq_some
  intro j t hj1 hj2
  rw [s.getChecked_of_le x_0 i j (by omega) (by omega), Option.some_bind,
    checkedPred_of_pos i hi1, Option.some_bind,
    s.getChecked_of_le x (i - 1) j (by omega) (by omega), Option.some_bind,
    s.getChecked_of_le x (i + 1) j (by omega) (by omega), Option.some_bind,
    checkedPred_of_pos j hj1, Option.some_bind,
    s.getChecked_of_le x i (j - 1) (by omega) (by omega), Option.some_bind,
    s.getChecked_of_le x i (j + 1) (by omega) (by omega), Option.some_bind,
    s.setChecked_of_le t i j _ (by omega) (by omega)]

theorem FluidSystem.solvePoissonChecked_eq [Zero α] [Add α] [Mul α] [Div α]
    (s : FluidSystem α) (x x_0 : Grid α) (a c : α) (policy : Grid α → Option (Grid α))
    (plain : Grid α → Grid α) (hp : ∀ g, policy g = some (plain g)) (n : Nat) :
    s.solvePoissonChecked x x_0 a c policy n = some (s.solvePoisson x x_0 a c plain n) := by
  unfold FluidSystem.solvePoissonChecked FluidSystem.solvePoisson
  simp only []
  rw [forLoopChecked_eq_some _ (fun _ (st : Grid α × Grid α) =>
    (plain (s.relaxInto x_0 st.1 a c st.2), s.relaxInto x_0 st.1 a c st.2))]
  · rfl
  · intro k st _ _
    rw [s.relaxIntoChecked_eq, Option.some_bind, hp, Option.some_bind]

theorem FluidSystem.gradChecked_eq [Field α] (s : FluidSystem α) (out : VelocityField α)
    (input : Grid α) : s.gradChecked out input = some (s.grad out input) := by
  unfold FluidSystem.gradChecked FluidSystem.grad
  apply forLoopChecked_eq_some
  intro i t hi1 hi2
  apply forLoopChecked_eq_some
  intro j t hj1 hj2
  simp only []
  rw [s.getChecked_of_le input (i + 1) j (by omega) (by omega), Option.some_bind,
    checkedPred_of_pos i hi1, Option.some_bind,
    s.getChecked_of_le input (i - 1) j (by omega) (by omega), Option.some_bind,
    s.setChecked_of_le t.c0 i j _ (by omega) (by omega), Option.some_bind,
    s.getChecked_of_le input i (j + 1) (by omega) (by omega), Option.some_bind,
    checkedPred_of_pos j hj1, Option.some_bind,
    s.getChecked_of_le input i (j - 1) (by omega) (by omega), Option.some_bind,
    s.setChecked_of_le t.c1 i j _ (by omega) (by omega), Option.some_bind]

theorem FluidSystem.divChecked_eq [Field α] (s : FluidSystem α) (out : Grid α)
    (input : VelocityField α) : s.divChecked out input = some (s.div out input) := by
  unfold FluidSystem.divChecked FluidSystem.div
  apply forLoopChecked_eq_some
  intro i t hi1 hi2
  apply forLoopChecked_eq_some
  intro j t hj1 hj2
  rw [s.getChecked_of_le input.c0 (i + 1) j (by omega) (by omega), Option.some_bind,
    checkedPred_of_pos i hi1, Option.some_bind,
    s.getChecked_of_le input.c0 (i - 1) j (by omega) (by omega), Option.some_bind,
    s.setChecked_of_le t i j _ (by omega) (by omega), Option.some_bind,
    s.getChecked_of_le input.c1 i (j + 1) (by omega) (by omega), Option.some_bind,
    checkedPred_of_pos j hj1, Option.some_bind,
    s.getChecked_of_le input.c1 i (j - 1) (by omega) (by omega), Option.some_bind,
    s.getChecked_of_le _ i j (by omega) (by omega), Option.some_bind,
    s.setChecked_of_le _ i j _ (by omega) (by omega)]

/-- C13: every cell index `solvePoisson`, `div`, `grad` and `setBoundaries` read or
write satisfies `0 ≤ i ≤ width+1` and `0 ≤ j ≤ height+1`, and `i − 1`, `j − 1` never
wrap.  With indexing and predecessor that return `none` out of range, each of the four
returns `some` of what the unchecked function computes: the out-of-range branch is
never taken (`solvePoisson` for a boundary setter that succeeds, as the three setters
do).  The checks are not vacuous: an index beyond `width+1` or `height+1` and the
predecessor of `0` give `none`. -/
theorem C13_indices_stay_in_range [Field α] (s : FluidSystem α) :
    (∀ (grid : Grid α) (b : Int),
        s.setBoundariesChecked grid b = some (s.setBoundaries grid b)) ∧
      (∀ (x x_0 : Grid α) (a c : α) (b : Int) (n : Nat),
        s.solvePoissonChecked x x_0 a c (fun g => s.setBoundariesChecked g b) n =
          some (s.solvePoisson x x_0 a c (fun g => s.setBoundaries g b) n)) ∧
      (∀ (out : Grid α) (input : VelocityField α),
        s.divChecked out input = some (s.div out input)) ∧
      (∀ (out : VelocityField α) (input : Grid α),
        s.gradChecked out input = some (s.grad out input)) ∧
      (∀ (g : Grid α) (i j : Nat), s.width + 1 < i ∨ s.height + 1 < j →
        s.getChecked g i j = none ∧ ∀ v, s.setChecked g i j v = none) ∧
      checkedPred 0 = none :=
  ⟨fun grid b => s.setBoundariesChecked_eq grid b,
    fun x x_0 a c b n => s.solvePoissonChecked_eq x x_0 a c _ _
      (fun g => s.setBoundariesChecked_eq g b) n,
    fun out input => s.divChecked_eq out input,
    fun out input => s.gradChecked_eq out input,
    fun g i j h => by
      have e : ¬ (i ≤ s.width + 1 ∧ j ≤ s.height + 1) := by omega
      exact ⟨by unfold FluidSystem.getChecked; rw [if_neg e],
        fun v => by unfold FluidSystem.setChecked; rw [if_neg e]⟩,
    rfl⟩

end Checked

/-! ## Overflow in floating-point arithmetic -/

section FloatingPoint

theorem Fp.div_eq (x y : Fp) : x / y = Fp.div x y := rfl

variable {α : Type}

end FloatingPoint

end FluidSim
